import Mathlib

/-!
# Verification of a Hashlife engine (smeagol)

A shallow embedding, in Lean 4, of the core of the `smeagol` Hashlife
engine, together with proofs and refutations of a fixed list of claims
about it.  The repository contains several editions of the same engine;
each Lean definition carries a doc comment naming the exact source
function it embeds.

* `BitBoard`: the SIMD bit-board kernels (`node/impls/evolve.rs`),
  modelled over 16-lane vectors of 16-bit rows (`packed_simd::u16x16`
  becomes `Fin 16 → Nat`, each lane taken modulo `2 ^ 16`).
* `Engine`: the hash-consed node store, node constructors/decomposers,
  evolution engine and the `Life` facade (`lib.rs`, `life.rs`,
  `node/impls/evolve.rs`), with the store as explicit state and fuel
  for recursion through store indices.
* `RcTree`/`SmTree`: pure-tree views of the node functions used by the
  cell-I/O claims (a store node denotes the tree obtained by following
  child identifiers; the store only interns).
-/

namespace BitBoard

/-- A `packed_simd::u16x16` value: 16 lanes (rows), each a 16-bit word
stored as a `Nat`.  Lane `i` is row `i`; bit 15 of a row is the leftmost
column (MSB-left). -/
abbrev Vec16 := Fin 16 → Nat

/-- Lanewise `&` on `u16x16`. -/
def vand (a b : Vec16) : Vec16 := fun i => a i &&& b i

/-- Lanewise `^` on `u16x16`. -/
def vxor (a b : Vec16) : Vec16 := fun i => a i ^^^ b i

/-- Lanewise `|` on `u16x16`. -/
def vor (a b : Vec16) : Vec16 := fun i => a i ||| b i

/-- Lanewise `!` (bitwise complement) on `u16x16`; on 16-bit lanes this
is xor with the all-ones word. -/
def vnot (a : Vec16) : Vec16 := fun i => (2 ^ 16 - 1) ^^^ a i

/-- Lanewise `<< 1` on `u16x16`; u16 lanes wrap, hence the reduction
modulo `2 ^ 16`. -/
def vshl (a : Vec16) : Vec16 := fun i => (a i <<< 1) % 2 ^ 16

/-- Lanewise `>> 1` on `u16x16`. -/
def vshr (a : Vec16) : Vec16 := fun i => a i >>> 1

/-- `rotate_lanes_up_u16x16` (evolve.rs): the lane shuffle
`[1, 2, …, 15, 0]`, so lane `i` of the result is lane `i + 1` (mod 16)
of the input. -/
def rotate_lanes_up_u16x16 (board : Vec16) : Vec16 := fun i => board (i + 1)

/-- `rotate_lanes_down_u16x16` (evolve.rs): the lane shuffle
`[15, 0, 1, …, 14]`, so lane `i` of the result is lane `i - 1` (mod 16)
of the input. -/
def rotate_lanes_down_u16x16 (board : Vec16) : Vec16 := fun i => board (i - 1)

/-- `CountsU16x16` (evolve.rs): a bit-sliced three-bit saturating
neighbor counter, one three-bit counter per cell. -/
structure CountsU16x16 where
  low : Vec16
  mid : Vec16
  high : Vec16

/-- `CountsU16x16::new` (evolve.rs). -/
def CountsU16x16.new : CountsU16x16 :=
  ⟨fun _ => 0, fun _ => 0, fun _ => 0⟩

/-- `CountsU16x16::add` (evolve.rs): half-adder on the low and middle
bits, saturating add into the high bit. -/
def CountsU16x16.add (c : CountsU16x16) (neighbors : Vec16) : CountsU16x16 :=
  let low_carry := vand c.low neighbors
  let low := vxor c.low neighbors
  let mid_carry := vand c.mid low_carry
  let mid := vxor c.mid low_carry
  let high := vor c.high mid_carry
  { low := low, mid := mid, high := high }

/-- `step_once_u16x16` (evolve.rs lines 54–87): one generation of B3/S23
on a 16×16 bit-board, bit-parallel over all cells. -/
def step_once_u16x16 (board : Vec16) : Vec16 :=
  let n1 := CountsU16x16.new.add (vshr (rotate_lanes_down_u16x16 board))
  let n2 := n1.add (rotate_lanes_down_u16x16 board)
  let n3 := n2.add (vshl (rotate_lanes_down_u16x16 board))
  let n4 := n3.add (vshr board)
  let n5 := n4.add (vshl board)
  let n6 := n5.add (vshr (rotate_lanes_up_u16x16 board))
  let n7 := n6.add (rotate_lanes_up_u16x16 board)
  let n8 := n7.add (vshl (rotate_lanes_up_u16x16 board))
  let two_neighbors := vand (vand (vnot n8.high) n8.mid) (vnot n8.low)
  let three_neighbors := vand (vand (vnot n8.high) n8.mid) n8.low
  vor (vand two_neighbors board) three_neighbors

/-- Cell extraction: the cell in row `r`, bit position `i` (bit 15 is the
leftmost column) of a board.  Row indices out of `[0, 15]` read as dead,
matching the claim's "neighbors beyond the board edge count as dead". -/
def cellAt (board : Vec16) (r i : Nat) : Bool :=
  if h : r < 16 then (board ⟨r, h⟩).testBit i else false

/-- The west neighbor (one column to the left) of the cell at row `r`,
bit `i`: bit `i + 1` of the same row. -/
def westOf (board : Vec16) (r i : Nat) : Bool := cellAt board r (i + 1)

/-- The east neighbor (one column to the right) of the cell at row `r`,
bit `i`: bit `i - 1` of the same row, dead beyond the right board edge
(`i = 0`). -/
def eastOf (board : Vec16) (r i : Nat) : Bool :=
  if i = 0 then false else cellAt board r (i - 1)

/-- The number of live neighbors (0..=8) of the cell at row `r`, bit `i`,
where neighbors beyond the left or right board edge count as dead. -/
def liveNeighbors (board : Vec16) (r i : Nat) : Nat :=
  (westOf board (r - 1) i).toNat + (cellAt board (r - 1) i).toNat +
    (eastOf board (r - 1) i).toNat +
  (westOf board r i).toNat + (eastOf board r i).toNat +
  (westOf board (r + 1) i).toNat + (cellAt board (r + 1) i).toNat +
    (eastOf board (r + 1) i).toNat

/-- The standard B3/S23 rule: the next cell is alive iff it has exactly
3 live neighbors, or exactly 2 live neighbors and is alive now. -/
def b3s23 (alive : Bool) (count : Nat) : Bool :=
  decide (count = 3) || (decide (count = 2) && alive)

/-- A concrete board holding a glider, used to witness C1. -/
def gliderBoard : Vec16 := fun r =>
  if r = 2 then 2 else if r = 3 then 1 else if r = 4 then 7 else 0

end BitBoard

namespace Geom

/-- `Position` (lib.rs): a signed coordinate pair; x grows east, y grows
south. -/
structure Position where
  x : Int
  y : Int
deriving DecidableEq, Repr

/-- `Position::offset` (lib.rs). -/
def Position.offset (p : Position) (x_offset y_offset : Int) : Position :=
  ⟨p.x + x_offset, p.y + y_offset⟩

/-- `Quadrant` (lib.rs). -/
inductive Quadrant where
  | northwest
  | northeast
  | southwest
  | southeast
deriving DecidableEq, Repr

/-- `Position::quadrant` (lib.rs): dispatch on the signs of the
coordinates. -/
def Position.quadrant (p : Position) : Quadrant :=
  if p.x < 0 then
    if p.y < 0 then .northwest else .southwest
  else
    if p.y < 0 then .northeast else .southeast

/-- `Cell` (lib.rs). -/
inductive Cell where
  | alive
  | dead
deriving DecidableEq, Repr

/-- `Cell::new` (lib.rs). -/
def Cell.new (alive : Bool) : Cell := if alive then .alive else .dead

/-- `Cell::is_alive` (lib.rs). -/
def Cell.is_alive : Cell → Bool
  | .alive => true
  | .dead => false

/-- The inclusive integer range `a..=b` as a list (Rust's
`for v in a..=b` iteration space). -/
def intsRange (a b : Int) : List Int :=
  (List.range (b + 1 - a).toNat).map (fun k => a + k)

end Geom

/-!
## Pure-tree view of the `Rc<Node>` edition (src/src/lib.rs)

In this edition a node is an `Rc<Node>` value; `create_leaf` /
`create_interior` / `create_empty` return nodes whose `kind` is exactly
the one assembled from their arguments (interning only shares an equal
node), so for value-level claims the store can be dropped and the node
functions become pure tree recursion.
-/

namespace RcTree

open Geom

/-- A `u16x16` board as its sixteen 16-bit rows, MSB-left. -/
abbrev Grid := List Nat

/-- `NodeKind` (lib.rs): a leaf holds a 16×16 board, an interior node
holds four children. -/
inductive Node where
  | leaf (grid : Grid)
  | interior (nw ne sw se : Node)
deriving DecidableEq, Repr

/-- The `level` field (lib.rs): `create_leaf` sets 4, `create_interior`
sets `nw.level + 1`. -/
def Node.level : Node → Nat
  | .leaf _ => 4
  | .interior nw _ _ _ => nw.level + 1

/-- `count_ones().wrapping_sum()` of a `u16x16` board (lib.rs
`create_leaf`). -/
def gridPopulation (g : Grid) : Nat :=
  (g.map (fun row => (List.range 16).countP (fun i => row.testBit i))).sum

/-- The `population` field (lib.rs): popcount at leaves,
sum of the children's populations at interior nodes. -/
def Node.population : Node → Nat
  | .leaf g => gridPopulation g
  | .interior nw ne sw se =>
      nw.population + ne.population + sw.population + se.population

/-- `Store::create_empty` (lib.rs), as the tree it denotes: an all-zero
leaf at level 4, else an interior node of four empties of the previous
level. -/
def emptyTree (level : Nat) : Node :=
  if level ≤ 4 then .leaf (List.replicate 16 0)
  else
    match level with
    | l + 1 => let e := emptyTree l; .interior e e e e
    | 0 => .leaf (List.replicate 16 0)

/-- `Node::get_cell` (lib.rs lines 543–562). -/
def Node.get_cell : Node → Position → Cell
  | .leaf grid, pos =>
      let x_offset := (7 - pos.x).toNat
      let y_offset := (pos.y + 8).toNat
      Cell.new ((grid.getD y_offset 0) &&& (1 <<< x_offset) > 0)
  | n@(.interior nw ne sw se), pos =>
      let offset : Int := 2 ^ (n.level - 2)
      match pos.quadrant with
      | .northwest => nw.get_cell (pos.offset offset offset)
      | .northeast => ne.get_cell (pos.offset (-offset) offset)
      | .southwest => sw.get_cell (pos.offset offset (-offset))
      | .southeast => se.get_cell (pos.offset (-offset) (-offset))

/-- One Rust `Vec::swap` on a list. -/
def swapAt (l : List Position) (i j : Nat) : List Position :=
  let vi := l.getD i ⟨0, 0⟩
  let vj := l.getD j ⟨0, 0⟩
  (l.set i vj).set j vi

/-- The in-place swap partition loop shared by `partition_horiz` and
`partition_vert` (lib.rs lines 828–848): elements satisfying the
predicate are swapped to the front; returns the permuted list and the
split point `next_index`. -/
def swapPartition (pred : Position → Bool) (coords : List Position) :
    List Position × Nat :=
  (List.range coords.length).foldl
    (fun st i =>
      if pred (st.1.getD i ⟨0, 0⟩) then (swapAt st.1 i st.2, st.2 + 1)
      else st)
    (coords, 0)

/-- `partition_horiz` (lib.rs): split at the pivot column. -/
def partition_horiz (coords : List Position) (pivot : Int) :
    List Position × List Position :=
  let (l, n) := swapPartition (fun p => p.x < pivot) coords
  (l.take n, l.drop n)

/-- `partition_vert` (lib.rs): split at the pivot row. -/
def partition_vert (coords : List Position) (pivot : Int) :
    List Position × List Position :=
  let (l, n) := swapPartition (fun p => p.y < pivot) coords
  (l.take n, l.drop n)

/-- `Node::set_cells_alive_recursive` (lib.rs lines 682–750).  Note the
interior branch: a quadrant whose slice is empty is replaced by
`store.create_empty(self.level - 1)`, not by the existing child. -/
def Node.set_cells_alive_recursive :
    Node → List Position → Int → Int → Node
  | .leaf grid, coords, offset_x, offset_y =>
      .leaf (coords.foldl
        (fun g pos =>
          let x := (7 - (pos.x - offset_x)).toNat
          let y := ((pos.y - offset_y) + 8).toNat
          g.set y ((g.getD y 0) ||| (1 <<< x)))
        grid)
  | n@(.interior nw ne sw se), coords, offset_x, offset_y =>
      let (north, south) := partition_vert coords offset_y
      let (northwest, northeast) := partition_horiz north offset_x
      let (southwest, southeast) := partition_horiz south offset_x
      let offset : Int := 2 ^ (n.level - 2)
      let nw' := if northwest.isEmpty then emptyTree (n.level - 1)
        else nw.set_cells_alive_recursive northwest (offset_x - offset)
          (offset_y - offset)
      let ne' := if northeast.isEmpty then emptyTree (n.level - 1)
        else ne.set_cells_alive_recursive northeast (offset_x + offset)
          (offset_y - offset)
      let sw' := if southwest.isEmpty then emptyTree (n.level - 1)
        else sw.set_cells_alive_recursive southwest (offset_x - offset)
          (offset_y + offset)
      let se' := if southeast.isEmpty then emptyTree (n.level - 1)
        else se.set_cells_alive_recursive southeast (offset_x + offset)
          (offset_y + offset)
      .interior nw' ne' sw' se'

/-- `Node::set_cells_alive` (lib.rs lines 674–680). -/
def Node.set_cells_alive (n : Node) (coords : List Position) : Node :=
  n.set_cells_alive_recursive coords 0 0

/-- An all-zero level-4 leaf. -/
def zeroLeaf : Node := .leaf (List.replicate 16 0)

/-- A level-5 node whose only alive cell is at `(-5, -5)` (in its
northwest quadrant). -/
def c2Node : Node :=
  .interior (.leaf ((List.replicate 16 0).set 11 16)) zeroLeaf zeroLeaf
    zeroLeaf

end RcTree

/-!
## Pure-tree view of the `NodeId` edition (src/smeagol)

Same reading: a store node denotes the tree obtained by following the
child `NodeId`s, and `create_level_3` / `create_level_4` /
`create_interior` return a node with exactly the assembled base, so the
query functions become pure tree recursion.  The stored `population`
field is popcount at leaves and the children's sum at interior nodes
(store/create.rs), which is the `population` function below.
-/

namespace SmTree

open Geom

/-- `NodeBase` (smeagol/src/node.rs): an 8×8 board (eight 8-bit rows),
a 16×16 board (sixteen 16-bit rows), or four children. -/
inductive SNode where
  | level3 (board : List Nat)
  | level4 (board : List Nat)
  | interior (nw ne sw se : SNode)
deriving DecidableEq, Repr

/-- The `level` field (store/create.rs): 3 and 4 at the leaves;
`create_interior` computes the level of a new interior node from its
northeast child (`let level = template.ne.level(self)`). -/
def SNode.level : SNode → Nat
  | .level3 _ => 3
  | .level4 _ => 4
  | .interior _ ne _ _ => ne.level + 1

/-- Popcount of a `w`-bit row. -/
def popcountW (w row : Nat) : Nat := (List.range w).countP (fun i => row.testBit i)

/-- The `population` field (store/create.rs): popcount of the board at
leaves, sum of the children's populations at interior nodes. -/
def SNode.population : SNode → Nat
  | .level3 b => (b.map (popcountW 8)).sum
  | .level4 b => (b.map (popcountW 16)).sum
  | .interior nw ne sw se =>
      nw.population + ne.population + sw.population + se.population

/-- `NodeId::get_cell` (smeagol/src/node/impls/get_set.rs lines 12–37). -/
def SNode.get_cell : SNode → Position → Cell
  | .level3 board, pos =>
      let x_offset := (3 - pos.x).toNat
      let y_offset := (pos.y + 4).toNat
      Cell.new ((board.getD y_offset 0) &&& (1 <<< x_offset) > 0)
  | .level4 board, pos =>
      let x_offset := (7 - pos.x).toNat
      let y_offset := (pos.y + 8).toNat
      Cell.new ((board.getD y_offset 0) &&& (1 <<< x_offset) > 0)
  | n@(.interior nw ne sw se), pos =>
      let offset : Int := 2 ^ (n.level - 2)
      match pos.quadrant with
      | .northwest => nw.get_cell (pos.offset offset offset)
      | .northeast => ne.get_cell (pos.offset (-offset) offset)
      | .southwest => sw.get_cell (pos.offset offset (-offset))
      | .southeast => se.get_cell (pos.offset (-offset) (-offset))

/-- `NodeId::contains_alive_cells`
(smeagol/src/node/impls/get_set.rs lines 218–358), including the
`(Southwest, Southeast)` branch, which descends into the *northeast*
child with southeast-translated coordinates.  The `unreachable!()`
quadrant combinations are rendered as `false`, and the two entry
assertions (`upper_left ≤ lower_right` componentwise) hold in every
recursive call made on a valid query, so they are not modelled. -/
def SNode.contains_alive_cells :
    SNode → Position → Position → Bool
  | n@(.level3 _), upper_left, lower_right =>
      if n.population = 0 then false
      else
        (intsRange upper_left.x lower_right.x).any fun x =>
          (intsRange upper_left.y lower_right.y).any fun y =>
            (n.get_cell ⟨x, y⟩).is_alive
  | n@(.level4 _), upper_left, lower_right =>
      if n.population = 0 then false
      else
        (intsRange upper_left.x lower_right.x).any fun x =>
          (intsRange upper_left.y lower_right.y).any fun y =>
            (n.get_cell ⟨x, y⟩).is_alive
  | n@(.interior nw ne sw se), upper_left, lower_right =>
      let offset : Int := 2 ^ (n.level - 2)
      if n.population = 0 then false
      else
        match upper_left.quadrant, lower_right.quadrant with
        | .northwest, .northwest =>
            nw.contains_alive_cells (upper_left.offset offset offset)
              (lower_right.offset offset offset)
        | .northeast, .northeast =>
            ne.contains_alive_cells (upper_left.offset (-offset) offset)
              (lower_right.offset (-offset) offset)
        | .southwest, .southwest =>
            sw.contains_alive_cells (upper_left.offset offset (-offset))
              (lower_right.offset offset (-offset))
        | .southeast, .southeast =>
            se.contains_alive_cells (upper_left.offset (-offset) (-offset))
              (lower_right.offset (-offset) (-offset))
        | .northwest, .northeast =>
            let nw_lower_right : Position := ⟨-1, lower_right.y⟩
            let ne_upper_left : Position := ⟨0, upper_left.y⟩
            nw.contains_alive_cells (upper_left.offset offset offset)
              (nw_lower_right.offset offset offset) ||
            ne.contains_alive_cells (ne_upper_left.offset (-offset) offset)
              (lower_right.offset (-offset) offset)
        | .northwest, .southwest =>
            let nw_lower_right : Position := ⟨lower_right.x, -1⟩
            let sw_upper_left : Position := ⟨upper_left.x, 0⟩
            nw.contains_alive_cells (upper_left.offset offset offset)
              (nw_lower_right.offset offset offset) ||
            sw.contains_alive_cells (sw_upper_left.offset offset (-offset))
              (lower_right.offset offset (-offset))
        | .southwest, .southeast =>
            let sw_lower_right : Position := ⟨-1, lower_right.y⟩
            let se_upper_left : Position := ⟨0, upper_left.y⟩
            sw.contains_alive_cells (upper_left.offset offset (-offset))
              (sw_lower_right.offset offset (-offset)) ||
            ne.contains_alive_cells (se_upper_left.offset (-offset) (-offset))
              (lower_right.offset (-offset) (-offset))
        | .northeast, .southeast =>
            let ne_lower_right : Position := ⟨lower_right.x, -1⟩
            let se_upper_left : Position := ⟨upper_left.x, 0⟩
            ne.contains_alive_cells (upper_left.offset (-offset) offset)
              (ne_lower_right.offset (-offset) offset) ||
            se.contains_alive_cells (se_upper_left.offset (-offset) (-offset))
              (lower_right.offset (-offset) (-offset))
        | .northwest, .southeast =>
            let ne_upper_left : Position := ⟨0, upper_left.y⟩
            let ne_lower_right : Position := ⟨lower_right.x, -1⟩
            let sw_upper_left : Position := ⟨upper_left.x, 0⟩
            let sw_lower_right : Position := ⟨-1, lower_right.y⟩
            let se_upper_left : Position := ⟨0, 0⟩
            nw.contains_alive_cells (upper_left.offset offset offset)
              ((⟨-1, -1⟩ : Position).offset offset offset) ||
            ne.contains_alive_cells (ne_upper_left.offset (-offset) offset)
              (ne_lower_right.offset (-offset) offset) ||
            sw.contains_alive_cells (sw_upper_left.offset offset (-offset))
              (sw_lower_right.offset offset (-offset)) ||
            se.contains_alive_cells (se_upper_left.offset (-offset) (-offset))
              (lower_right.offset (-offset) (-offset))
        | _, _ => false

/-- An all-zero level-4 leaf. -/
def zeroLeaf4 : SNode := .level4 (List.replicate 16 0)

/-- A level-5 node whose only alive cell is at `(4, 4)` (in its
southeast quadrant). -/
def c3Node : SNode :=
  .interior zeroLeaf4 zeroLeaf4 zeroLeaf4
    (.level4 ((List.replicate 16 0).set 4 2048))

end SmTree

/-!
## The store-based engine (src/src/lib.rs, src/src/life.rs,
src/src/node/impls/evolve.rs)

The hash-consed store, node constructors/decomposers, the evolution
engine and the `Life` facade, with the store passed explicitly.  Node
identifiers are indices into the `nodes` list; the `indices` hash map
(`ids` in the smeagol edition) is modelled by searching the node list
for an equal base, which is what a hash map lookup computes.  Grids are
bit-packed into a single `Nat` (a `u16x16` *is* a 256-bit SIMD
register); recursion through store indices is by fuel, and recursive
functions are written with the bare recursors `Nat.rec`/`List.rec` so
that the kernel can evaluate them without building `brecOn` towers.
-/

namespace Engine

open Geom

/-- A `u16x16` SIMD register, packed as one 256-bit natural number:
lane (row) `r` occupies bits `[16*r, 16*r + 16)`.  A `u16x32` is the
same with 32 lanes (512 bits).  `lanes` is the lane count. -/
abbrev Grid := Nat

/-- All-lanes mask for `lanes` 16-bit lanes. -/
def fullMask (lanes : Nat) : Nat := 2 ^ (16 * lanes) - 1

/-- The mask with the low `16 - k` bits of each of `lanes` 16-bit lanes
set: what a lanewise shift by `k` may keep of each lane. -/
def laneMask (lanes k : Nat) : Nat :=
  Nat.rec 0 (fun _ ih => (ih <<< 16) ||| (2 ^ (16 - k) - 1)) lanes

/-- Lanewise `<< k` (k ≤ 16) on `lanes` 16-bit lanes: u16 lanes wrap, so
each lane's top `k` bits are discarded before the shift. -/
def vshl (lanes k : Nat) (a : Grid) : Grid :=
  (a &&& laneMask lanes k) <<< k

/-- Lanewise `>> k` (k ≤ 16) on `lanes` 16-bit lanes: bits leaving a
lane at the bottom must not enter the lane below. -/
def vshr (lanes k : Nat) (a : Grid) : Grid :=
  (a >>> k) &&& laneMask lanes k

/-- `rotate_lanes_up` (evolve.rs): the lane shuffle `[1, …, lanes-1, 0]`;
row `r` of the result is row `r + 1 (mod lanes)` of the input. -/
def rotate_lanes_up (lanes : Nat) (a : Grid) : Grid :=
  (a >>> 16) ||| ((a &&& 0xFFFF) <<< (16 * (lanes - 1)))

/-- `rotate_lanes_down` (evolve.rs): the lane shuffle
`[lanes-1, 0, …, lanes-2]`; row `r` of the result is row
`r - 1 (mod lanes)` of the input. -/
def rotate_lanes_down (lanes : Nat) (a : Grid) : Grid :=
  ((a <<< 16) &&& fullMask lanes) ||| (a >>> (16 * (lanes - 1)))

/-- Lanewise complement (`!` on a `u16xN`). -/
def vnot (lanes : Nat) (a : Grid) : Grid := fullMask lanes ^^^ a

/-- `CountsU16x16` / `CountsU16x32` (evolve.rs): a bit-sliced three-bit
saturating neighbor counter. -/
structure Counts where
  low : Grid
  mid : Grid
  high : Grid

/-- `CountsU16xN::new` (evolve.rs). -/
def Counts.new : Counts := ⟨0, 0, 0⟩

/-- `CountsU16xN::add` (evolve.rs). -/
def Counts.add (c : Counts) (neighbors : Grid) : Counts :=
  let low_carry := c.low &&& neighbors
  let low := c.low ^^^ neighbors
  let mid_carry := c.mid &&& low_carry
  let mid := c.mid ^^^ low_carry
  let high := c.high ||| mid_carry
  ⟨low, mid, high⟩

/-- `step_once_u16x16` / `step_once_u16x32` (evolve.rs): one generation
of B3/S23 on a `lanes`-row bit-board. -/
def step_once (lanes : Nat) (board : Grid) : Grid :=
  let n1 := Counts.new.add (vshr lanes 1 (rotate_lanes_down lanes board))
  let n2 := n1.add (rotate_lanes_down lanes board)
  let n3 := n2.add (vshl lanes 1 (rotate_lanes_down lanes board))
  let n4 := n3.add (vshr lanes 1 board)
  let n5 := n4.add (vshl lanes 1 board)
  let n6 := n5.add (vshr lanes 1 (rotate_lanes_up lanes board))
  let n7 := n6.add (rotate_lanes_up lanes board)
  let n8 := n7.add (vshl lanes 1 (rotate_lanes_up lanes board))
  let two_neighbors := vnot lanes n8.high &&& n8.mid &&& vnot lanes n8.low
  let three_neighbors := vnot lanes n8.high &&& n8.mid &&& n8.low
  (two_neighbors &&& board) ||| three_neighbors

/-- `jump_u16x16` / `jump_u16x32` (evolve.rs): four single steps. -/
def jump_leaf (lanes : Nat) (board : Grid) : Grid :=
  step_once lanes (step_once lanes (step_once lanes (step_once lanes board)))

/-- `step_u16x16` / `step_u16x32` (evolve.rs): `2 ^ step_log_2` single
steps. -/
def iterate_step_once (lanes : Nat) : Nat → Grid → Grid :=
  Nat.rec (fun b => b) (fun _ ih b => ih (step_once lanes b))

/-- `step_u16x16` / `step_u16x32` (evolve.rs lines 97–102, 238–243):
`1 << step_log_2` single steps. -/
def step_leaf (lanes : Nat) (board : Grid) (step_log_2 : Nat) : Grid :=
  iterate_step_once lanes (1 <<< step_log_2) board

/-- Rotate a 16-lane grid by `k` lanes (the shuffle
`[k, …, 15, 0, …, k-1]`: row `j` of the result is row `j + k (mod 16)`
of the input). -/
def rotLanes16 (k : Nat) (a : Grid) : Grid :=
  (a >>> (16 * k)) ||| ((a &&& (2 ^ (16 * k) - 1)) <<< (16 * (16 - k)))

/-- Modelled from the spec: the mask constant `LEVEL_4_NW_MASK` used by
`combine_results_u16x16` (its definition is not under src/): keeps the
northwest 8×8 quadrant, i.e. the high byte of rows 0–7. -/
def LEVEL_4_NW_MASK : Grid := laneMask 8 8 <<< 8

/-- Modelled from the spec: `LEVEL_4_NE_MASK`: low byte of rows 0–7. -/
def LEVEL_4_NE_MASK : Grid := laneMask 8 8

/-- Modelled from the spec: `LEVEL_4_SW_MASK`: high byte of rows 8–15. -/
def LEVEL_4_SW_MASK : Grid := (laneMask 8 8 <<< 8) <<< 128

/-- Modelled from the spec: `LEVEL_4_SE_MASK`: low byte of rows 8–15. -/
def LEVEL_4_SE_MASK : Grid := laneMask 8 8 <<< 128

/-- `combine_results_u16x16` (evolve.rs lines 104–135): place the
central 8×8 of each quadrant's result into the corresponding quadrant
of a single 16×16 board. -/
def combine_results (nw_grid ne_grid sw_grid se_grid : Grid) : Grid :=
  let nw_grid := rotLanes16 4 (vshl 16 4 nw_grid) &&& LEVEL_4_NW_MASK
  let ne_grid := rotLanes16 4 (vshr 16 4 ne_grid) &&& LEVEL_4_NE_MASK
  let sw_grid := rotLanes16 12 (vshl 16 4 sw_grid) &&& LEVEL_4_SW_MASK
  let se_grid := rotLanes16 12 (vshr 16 4 se_grid) &&& LEVEL_4_SE_MASK
  nw_grid ||| ne_grid ||| sw_grid ||| se_grid

/-- `horiz_u16x16` (evolve.rs): `(w << 8) | (e >> 8)` lanewise. -/
def horiz (w e : Grid) : Grid := vshl 16 8 w ||| vshr 16 8 e

/-- `vert_u16x16` (evolve.rs): the shuffle `[8, …, 23]` over the pair
`(n, s)`: rows 8–15 of `n` followed by rows 0–7 of `s`. -/
def vert (n s : Grid) : Grid := (n >>> 128) ||| ((s &&& (2 ^ 128 - 1)) <<< 128)

/-- `center_of_four_u16x16` (lib.rs lines 18–41). -/
def center_of_four (nw_grid ne_grid sw_grid se_grid : Grid) : Grid :=
  let nw_grid := vshl 16 8 nw_grid
  let sw_grid := vshl 16 8 sw_grid
  let left := (nw_grid >>> 128) ||| ((sw_grid &&& (2 ^ 128 - 1)) <<< 128)
  let ne_grid := vshr 16 8 ne_grid
  let se_grid := vshr 16 8 se_grid
  let right := (ne_grid >>> 128) ||| ((se_grid &&& (2 ^ 128 - 1)) <<< 128)
  left ||| right

/-- Popcount of the low `16 * lanes` bits (`count_ones().wrapping_sum()`
on a `u16xN`). -/
def popCount (w : Nat) : Nat → Nat :=
  Nat.rec (motive := fun _ => Nat → Nat) (fun _ => 0)
    (fun _ ih n => (n &&& 1) + ih (n >>> 1)) w

/-- `NodeKind` (lib.rs lines 278–289): a leaf holds a 16×16 board, an
interior node holds four child identifiers. -/
inductive NodeKind where
  | leaf (grid : Grid)
  | interior (nw ne sw se : Nat)
deriving DecidableEq, Repr

structure Node where
  kind : NodeKind
  level : Nat
  population : Nat
deriving DecidableEq, Repr

structure NodeTemplate where
  nw : Nat
  ne : Nat
  sw : Nat
  se : Nat
deriving DecidableEq, Repr

structure Store where
  nodes : List Node
  empties : List Nat
  steps : List (Option Nat)
  jumps : List (Option Nat)
  step_log_2 : Nat
deriving DecidableEq, Repr

def Store.new : Store := ⟨[], [], [], [], 0⟩

/-- Kernel-friendly list length (recursor form). -/
def listLen {α : Type} : List α → Nat :=
  List.rec 0 (fun _ _ ih => ih + 1)

/-- Kernel-friendly list append (recursor form). -/
def listApp {α : Type} (xs ys : List α) : List α :=
  List.rec ys (fun a _ ih => a :: ih) xs

/-- Kernel-friendly indexing with a default (recursor form of
`Vec::index` / `getD`). -/
def listGetD {α : Type} (d : α) : List α → Nat → α :=
  List.rec (fun _ => d)
    (fun a _ ih n => Nat.rec a (fun m _ => ih m) n)

/-- Kernel-friendly functional update (recursor form of `v[i] = x`). -/
def listSet {α : Type} (x : α) : List α → Nat → List α :=
  List.rec (fun _ => [])
    (fun a as ih n => Nat.rec (x :: as) (fun m _ => a :: ih m) n)

/-- Kernel-friendly replicate (recursor form of `vec![v; n]`). -/
def listReplicate {α : Type} (x : α) : Nat → List α :=
  Nat.rec [] (fun _ ih => x :: ih)

/-- Out-of-range index default (a `Vec` index out of range panics in the
source; well-formed stores never produce such an id). -/
def defaultNode : Node := ⟨.leaf 0, 0, 0⟩

/-- `Store::node` / `Store::get` (indexing `nodes` by the id). -/
def Store.node (s : Store) (id : Nat) : Node := listGetD defaultNode s.nodes id

/-- The canonicalization table `indices: HashMap<NodeKind, usize>`
(lib.rs), modelled as what the map lookup computes: the index of the
node with an equal base, if any. -/
def findKind (nodes : List Node) (k : NodeKind) : Option Nat :=
  List.rec none
    (fun n _ ih =>
      if n.kind = k then some 0
      else match ih with
           | some i => some (i + 1)
           | none => none)
    nodes

/-- `Store::add_node` (lib.rs lines 262–275): return the existing id of
an equal base, or append the node and extend the caches with empty
slots. -/
def Store.add_node (s : Store) (node : Node) : Nat × Store :=
  match findKind s.nodes node.kind with
  | some i => (i, s)
  | none =>
      (listLen s.nodes,
        { s with
            nodes := listApp s.nodes [node],
            jumps := listApp s.jumps [none],
            steps := listApp s.steps [none] })

/-- `Store::create_leaf` (lib.rs lines 234–242): level 4, population =
popcount of the board. -/
def Store.create_leaf (s : Store) (grid : Grid) : Nat × Store :=
  s.add_node { kind := .leaf grid, level := 4, population := popCount 256 grid }

/-- `Store::create_interior` (lib.rs lines 244–260): level = nw's level
plus one, population = the sum of the four children's populations. -/
def Store.create_interior (s : Store) (t : NodeTemplate) : Nat × Store :=
  s.add_node
    { kind := .interior t.nw t.ne t.sw t.se,
      level := (s.node t.nw).level + 1,
      population := (s.node t.nw).population + (s.node t.ne).population +
        (s.node t.sw).population + (s.node t.se).population }

/-- The recursion of `Store::create_empty` (lib.rs lines 215–232),
carried on the level. -/
def Store.create_empty_rec : Nat → Store → Nat × Store :=
  Nat.rec (motive := fun _ => Store → Nat × Store)
    (fun s => (0, s))
    (fun l ih s =>
      let level := l + 1
      if level < listLen s.empties then (listGetD 0 s.empties level, s)
      else
        let (empty, s') :=
          if level = 4 then s.create_leaf 0
          else
            let (e, s₁) := ih s
            s₁.create_interior ⟨e, e, e, e⟩
        (empty, { s' with empties := listApp s'.empties [empty] }))

/-- `Store::create_empty` (lib.rs lines 215–232): serve from the
`empties` cache when possible, else build recursively and push onto the
cache.  (`create_empty_rec` carries the recursion on the level; level 0
cannot be built, as in the source, where it would underflow.) -/
def Store.create_empty (s : Store) (level : Nat) : Nat × Store :=
  Store.create_empty_rec level s

/-- `Store::set_step_log_2` (lib.rs lines 190–195): on a change, clear
the step cache; the jump cache is untouched. -/
def Store.set_step_log_2 (s : Store) (step_log_2 : Nat) : Store :=
  if step_log_2 ≠ s.step_log_2 then
    { s with step_log_2 := step_log_2,
             steps := listReplicate none (listLen s.steps) }
  else s

/-- `Store::get_step` (lib.rs lines 197–199). -/
def Store.get_step (s : Store) (id : Nat) : Option Nat := listGetD none s.steps id

/-- `Store::add_step` (lib.rs lines 201–203). -/
def Store.add_step (s : Store) (id result : Nat) : Store :=
  { s with steps := listSet (some result) s.steps id }

/-- `Store::get_jump` (lib.rs lines 205–207). -/
def Store.get_jump (s : Store) (id : Nat) : Option Nat := listGetD none s.jumps id

/-- `Store::add_jump` (lib.rs lines 209–211). -/
def Store.add_jump (s : Store) (id result : Nat) : Store :=
  { s with jumps := listSet (some result) s.jumps id }

/-- `Node::nw` (lib.rs lines 390–395); panics on a leaf in the source. -/
def nwOf (s : Store) (id : Nat) : Nat :=
  match (s.node id).kind with
  | .interior nw _ _ _ => nw
  | .leaf _ => 0

/-- `Node::ne` (lib.rs lines 397–402). -/
def neOf (s : Store) (id : Nat) : Nat :=
  match (s.node id).kind with
  | .interior _ ne _ _ => ne
  | .leaf _ => 0

/-- `Node::sw` (lib.rs lines 404–409). -/
def swOf (s : Store) (id : Nat) : Nat :=
  match (s.node id).kind with
  | .interior _ _ sw _ => sw
  | .leaf _ => 0

/-- `Node::se` (lib.rs lines 411–416). -/
def seOf (s : Store) (id : Nat) : Nat :=
  match (s.node id).kind with
  | .interior _ _ _ se => se
  | .leaf _ => 0

/-- `Node::grid` / `unwrap_leaf`; panics on an interior node in the
source. -/
def gridOf (s : Store) (id : Nat) : Grid :=
  match (s.node id).kind with
  | .leaf g => g
  | .interior _ _ _ _ => 0

/-- `Node::center_subnode` (lib.rs lines 418–439): bit-splice at level 5,
else the interior of the four inner children. -/
def center_subnode (id : Nat) (s : Store) : Nat × Store :=
  match (s.node id).kind with
  | .leaf _ => (0, s)
  | .interior nw ne sw se =>
      if (s.node id).level = 5 then
        s.create_leaf
          (center_of_four (gridOf s nw) (gridOf s ne) (gridOf s sw) (gridOf s se))
      else
        s.create_interior ⟨seOf s nw, swOf s ne, neOf s sw, nwOf s se⟩

/-- `centered_horiz` (lib.rs lines 466–493). -/
def centered_horiz (s : Store) (w e : Nat) : Nat × Store :=
  match (s.node w).kind, (s.node e).kind with
  | .interior _ w_ne _ w_se, .interior e_nw _ e_sw _ =>
      if (s.node w).level = 5 then
        s.create_leaf
          (center_of_four (gridOf s w_ne) (gridOf s e_nw) (gridOf s w_se)
            (gridOf s e_sw))
      else
        s.create_interior ⟨seOf s w_ne, swOf s e_nw, neOf s w_se, nwOf s e_sw⟩
  | _, _ => (0, s)

/-- `centered_vert` (lib.rs lines 495–522). -/
def centered_vert (s : Store) (n m : Nat) : Nat × Store :=
  match (s.node n).kind, (s.node m).kind with
  | .interior _ _ n_sw n_se, .interior m_nw m_ne _ _ =>
      if (s.node n).level = 5 then
        s.create_leaf
          (center_of_four (gridOf s n_sw) (gridOf s n_se) (gridOf s m_nw)
            (gridOf s m_ne))
      else
        s.create_interior ⟨seOf s n_sw, swOf s n_se, neOf s m_nw, nwOf s m_ne⟩
  | _, _ => (0, s)

/-- `Node::north_subsubnode` (lib.rs lines 441–445). -/
def north_subsubnode (id : Nat) (s : Store) : Nat × Store :=
  centered_horiz s (nwOf s id) (neOf s id)

/-- `Node::south_subsubnode` (lib.rs lines 447–451). -/
def south_subsubnode (id : Nat) (s : Store) : Nat × Store :=
  centered_horiz s (swOf s id) (seOf s id)

/-- `Node::west_subsubnode` (lib.rs lines 453–457). -/
def west_subsubnode (id : Nat) (s : Store) : Nat × Store :=
  centered_vert s (nwOf s id) (swOf s id)

/-- `Node::east_subsubnode` (lib.rs lines 459–463). -/
def east_subsubnode (id : Nat) (s : Store) : Nat × Store :=
  centered_vert s (neOf s id) (seOf s id)

/-- `Node::expand` (lib.rs lines 351–388): each quadrant becomes an
interior node with the old child at its inner corner and empties at the
other three; panics on a leaf in the source. -/
def expand (id : Nat) (s : Store) : Nat × Store :=
  match (s.node id).kind with
  | .leaf _ => (0, s)
  | .interior nw ne sw se =>
      let (empty, s) := s.create_empty ((s.node id).level - 1)
      let (nw', s) := s.create_interior ⟨empty, empty, empty, nw⟩
      let (ne', s) := s.create_interior ⟨empty, empty, ne, empty⟩
      let (sw', s) := s.create_interior ⟨empty, sw, empty, empty⟩
      let (se', s) := s.create_interior ⟨se, empty, empty, empty⟩
      s.create_interior ⟨nw', ne', sw', se'⟩

/-- `jump_level_5` (evolve.rs lines 313–400): stack the west and east
leaf pairs into 32-lane boards, jump those and the spliced middle, cut
out the nine 16×16 boards A..I, jump the four overlapping tiles and
combine. -/
def jump_level_5 (s : Store) (nw ne sw se : Nat) : Nat × Store :=
  let nw_grid := gridOf s nw
  let ne_grid := gridOf s ne
  let sw_grid := gridOf s sw
  let se_grid := gridOf s se
  let left := nw_grid ||| (sw_grid <<< 256)
  let right := ne_grid ||| (se_grid <<< 256)
  let middle := vshl 32 8 left ||| vshr 32 8 right
  let left := jump_leaf 32 left
  let right := jump_leaf 32 right
  let middle := jump_leaf 32 middle
  let a := left &&& (2 ^ 256 - 1)
  let d := (left >>> 128) &&& (2 ^ 256 - 1)
  let g := left >>> 256
  let c := right &&& (2 ^ 256 - 1)
  let f := (right >>> 128) &&& (2 ^ 256 - 1)
  let i := right >>> 256
  let b := middle &&& (2 ^ 256 - 1)
  let e := (middle >>> 128) &&& (2 ^ 256 - 1)
  let h := middle >>> 256
  let w := jump_leaf 16 (combine_results a b d e)
  let x := jump_leaf 16 (combine_results b c e f)
  let y := jump_leaf 16 (combine_results d e g h)
  let z := jump_leaf 16 (combine_results e f h i)
  s.create_leaf (combine_results w x y z)

/-- `step_level_5` (evolve.rs lines 245–311): assemble the nine boards
A..I by bit-splicing and advance the four overlapping tiles by
`2 ^ step_log_2` single steps. -/
def step_level_5 (s : Store) (step_log_2 : Nat) (nw ne sw se : Nat) :
    Nat × Store :=
  let nw_grid := gridOf s nw
  let ne_grid := gridOf s ne
  let sw_grid := gridOf s sw
  let se_grid := gridOf s se
  let a := nw_grid
  let b := horiz nw_grid ne_grid
  let c := ne_grid
  let d := vert nw_grid sw_grid
  let e := center_of_four nw_grid ne_grid sw_grid se_grid
  let f := vert ne_grid se_grid
  let g := sw_grid
  let h := horiz sw_grid se_grid
  let i := se_grid
  let w := step_leaf 16 (combine_results a b d e) step_log_2
  let x := step_leaf 16 (combine_results b c e f) step_log_2
  let y := step_leaf 16 (combine_results d e g h) step_log_2
  let z := step_leaf 16 (combine_results e f h i) step_log_2
  s.create_leaf (combine_results w x y z)

/-- `horiz_jump` (evolve.rs lines 402–411); the recursive call to `jump`
is passed in as `jumpF`. -/
def horiz_jump (jumpF : Nat → Store → Nat × Store) (s : Store) (w e : Nat) :
    Nat × Store :=
  let nw := neOf s w
  let ne := nwOf s e
  let sw := seOf s w
  let se := swOf s e
  let (t, s) := s.create_interior ⟨nw, ne, sw, se⟩
  jumpF t s

/-- `vert_jump` (evolve.rs lines 413–422). -/
def vert_jump (jumpF : Nat → Store → Nat × Store) (s : Store) (n m : Nat) :
    Nat × Store :=
  let nw := swOf s n
  let ne := seOf s n
  let sw := nwOf s m
  let se := neOf s m
  let (t, s) := s.create_interior ⟨nw, ne, sw, se⟩
  jumpF t s

/-- One unfolding of `NodeId::jump` (evolve.rs lines 429–544): the
recursive occurrences are `jumpF`. -/
def jump_body (jumpF : Nat → Store → Nat × Store) (id : Nat) (s : Store) :
    Nat × Store :=
  match s.get_jump id with
  | some j => (j, s)
  | none =>
    match (s.node id).kind with
    | .leaf _ => (0, s)
    | .interior nw ne sw se =>
      let level := (s.node id).level
      if (s.node id).population = 0 then
        s.create_empty (level - 1)
      else if level = 5 then
        jump_level_5 s nw ne sw se
      else
        let (a, s) := jumpF nw s
        let (b, s) := horiz_jump jumpF s nw ne
        let (c, s) := jumpF ne s
        let (d, s) := vert_jump jumpF s nw sw
        let (e0, s) := center_subnode id s
        let (e, s) := jumpF e0 s
        let (f, s) := vert_jump jumpF s ne se
        let (g, s) := jumpF sw s
        let (h, s) := horiz_jump jumpF s sw se
        let (i, s) := jumpF se s
        let (w0, s) := s.create_interior ⟨a, b, d, e⟩
        let (w, s) := jumpF w0 s
        let (x0, s) := s.create_interior ⟨b, c, e, f⟩
        let (x, s) := jumpF x0 s
        let (y0, s) := s.create_interior ⟨d, e, g, h⟩
        let (y, s) := jumpF y0 s
        let (z0, s) := s.create_interior ⟨e, f, h, i⟩
        let (z, s) := jumpF z0 s
        let (j, s) := s.create_interior ⟨w, x, y, z⟩
        (j, s.add_jump id j)

/-- `NodeId::jump` (evolve.rs lines 429–544): for a level-n node,
advance the node 2^(n-2) generations; returns a level n-1 node.
Consults the jump cache first; a zero-population node short-circuits to
the empty node and the level-5 base case calls `jump_level_5` (neither
populates the cache); the recursive case ends with `add_jump`.  The
recursion is by fuel (the source recursion terminates because levels
decrease). -/
def jump : Nat → Nat → Store → Nat × Store :=
  Nat.rec (motive := fun _ => Nat → Store → Nat × Store)
    (fun _ s => (0, s))
    (fun _ ih => jump_body ih)

/-- One unfolding of `NodeId::step` (evolve.rs lines 552–677): the
recursive occurrences are `stepF`, and `jumpF` is the `jump` at the
same recursion depth. -/
def step_body (stepF jumpF : Nat → Store → Nat × Store) (id : Nat)
    (s : Store) : Nat × Store :=
  match s.get_step id with
  | some st => (st, s)
  | none =>
    let step_log_2 := s.step_log_2
    match (s.node id).kind with
    | .leaf _ => (0, s)
    | .interior nw ne sw se =>
      let level := (s.node id).level
      if step_log_2 = level - 2 then
        let (st, s) := jumpF id s
        (st, s.add_step id st)
      else if (s.node id).population = 0 then
        s.create_empty (level - 1)
      else if level = 5 then
        let (st, s) := step_level_5 s step_log_2 nw ne sw se
        (st, s.add_step id st)
      else
        let (a, s) := center_subnode nw s
        let (b, s) := north_subsubnode id s
        let (c, s) := center_subnode ne s
        let (d, s) := west_subsubnode id s
        let (e0, s) := center_subnode id s
        let (e, s) := center_subnode e0 s
        let (f, s) := east_subsubnode id s
        let (g, s) := center_subnode sw s
        let (h, s) := south_subsubnode id s
        let (i, s) := center_subnode se s
        let (w0, s) := s.create_interior ⟨a, b, d, e⟩
        let (w, s) := stepF w0 s
        let (x0, s) := s.create_interior ⟨b, c, e, f⟩
        let (x, s) := stepF x0 s
        let (y0, s) := s.create_interior ⟨d, e, g, h⟩
        let (y, s) := stepF y0 s
        let (z0, s) := s.create_interior ⟨e, f, h, i⟩
        let (z, s) := stepF z0 s
        let (st, s) := s.create_interior ⟨w, x, y, z⟩
        (st, s.add_step id st)

/-- `NodeId::step` (evolve.rs lines 552–677): advance 2^step_log_2
generations.  Consults the step cache; at step_log_2 = level - 2 it
delegates to `jump` and caches; the zero-population short-circuit does
not cache; the level-5 base case and the recursive case cache. -/
def step : Nat → Nat → Store → Nat × Store :=
  Nat.rec (motive := fun _ => Nat → Store → Nat × Store)
    (fun _ s => (0, s))
    (fun fuel ih => step_body ih (jump fuel))

/-- One unfolding of `Node::get_cell` (lib.rs lines 543–562; cells.rs
lines 24–50): the recursive occurrences are `get_cellF`. -/
def get_cell_body (get_cellF : Nat → Store → Position → Cell) (id : Nat)
    (s : Store) (pos : Position) : Cell :=
  match (s.node id).kind with
  | .leaf grid =>
      let x_offset := (7 - pos.x).toNat
      let y_offset := (pos.y + 8).toNat
      Cell.new ((grid >>> (16 * y_offset)) &&& 0xFFFF &&& (1 <<< x_offset) > 0)
  | .interior nw ne sw se =>
      let offset : Int := Int.ofNat (2 ^ ((s.node id).level - 2))
      match pos.quadrant with
      | .northwest => get_cellF nw s (pos.offset offset offset)
      | .northeast => get_cellF ne s (pos.offset (-offset) offset)
      | .southwest => get_cellF sw s (pos.offset offset (-offset))
      | .southeast => get_cellF se s (pos.offset (-offset) (-offset))

/-- `Node::get_cell` (lib.rs lines 543–562; cells.rs lines 24–50). -/
def get_cell : Nat → Nat → Store → Position → Cell :=
  Nat.rec (motive := fun _ => Nat → Store → Position → Cell)
    (fun _ _ _ => .dead)
    (fun _ ih => get_cell_body ih)

/-- `Node::set_cell_alive` (lib.rs lines 564–616; cells.rs lines
66–105). -/
def set_cell_alive : Nat → Nat → Store → Position → Nat × Store :=
  Nat.rec (motive := fun _ => Nat → Store → Position → Nat × Store)
    (fun _ s _ => (0, s))
    (fun _ set_cell_aliveF id s pos =>
    match (s.node id).kind with
    | .leaf grid =>
        let x_offset := (7 - pos.x).toNat
        let y_offset := (pos.y + 8).toNat
        s.create_leaf (grid ||| (1 <<< (16 * y_offset + x_offset)))
    | .interior nw ne sw se =>
        let offset : Int := Int.ofNat (2 ^ ((s.node id).level - 2))
        match pos.quadrant with
        | .northwest =>
            let (nw', s) := set_cell_aliveF nw s (pos.offset offset offset)
            s.create_interior ⟨nw', ne, sw, se⟩
        | .northeast =>
            let (ne', s) := set_cell_aliveF ne s (pos.offset (-offset) offset)
            s.create_interior ⟨nw, ne', sw, se⟩
        | .southwest =>
            let (sw', s) := set_cell_aliveF sw s (pos.offset offset (-offset))
            s.create_interior ⟨nw, ne, sw', se⟩
        | .southeast =>
            let (se', s) := set_cell_aliveF se s (pos.offset (-offset) (-offset))
            s.create_interior ⟨nw, ne, sw, se'⟩)

/-- `Node::get_alive_cells` (lib.rs lines 618–672): leaf cells are
listed row-major in local coordinates; interior nodes concatenate the
four children's lists, offset by the quarter side length. -/
def get_alive_cells : Nat → Nat → Store → List Position :=
  Nat.rec (motive := fun _ => Nat → Store → List Position)
    (fun _ _ => [])
    (fun _ get_alive_cellsF id s =>
    match (s.node id).kind with
    | .leaf grid =>
        if popCount 256 grid = 0 then []
        else
          (intsRange (-8) 7).flatMap fun y =>
            (intsRange (-8) 7).filterMap fun x =>
              if (grid >>> (16 * (y + 8).toNat)) &&& 0xFFFF &&&
                  (1 <<< (7 - x).toNat) > 0 then
                some ⟨x, y⟩
              else none
    | .interior nw ne sw se =>
        if (s.node id).population = 0 then []
        else
          let offset : Int := Int.ofNat (2 ^ ((s.node id).level - 2))
          ((get_alive_cellsF nw s).map fun p => p.offset (-offset) (-offset)) ++
          ((get_alive_cellsF ne s).map fun p => p.offset offset (-offset)) ++
          ((get_alive_cellsF sw s).map fun p => p.offset (-offset) offset) ++
          ((get_alive_cellsF se s).map fun p => p.offset offset offset))

/-- `Node::min_coord` (lib.rs lines 525–531). -/
def min_coord (s : Store) (id : Nat) : Int :=
  if (s.node id).level = 64 then -(Int.ofNat (2 ^ 63))
  else -(Int.ofNat (2 ^ ((s.node id).level - 1)))

/-- `Node::max_coord` (lib.rs lines 533–539). -/
def max_coord (s : Store) (id : Nat) : Int :=
  if (s.node id).level = 64 then Int.ofNat (2 ^ 63) - 1
  else Int.ofNat (2 ^ ((s.node id).level - 1)) - 1

/-- `INITIAL_LEVEL` (life.rs line 9). -/
def INITIAL_LEVEL : Nat := 7

/-- `Life` (life.rs lines 11–16): the universe facade. -/
structure Life where
  root : Nat
  store : Store
  generation : Nat
deriving Repr

def Life.new : Life :=
  let (root, store) := Store.new.create_empty INITIAL_LEVEL
  ⟨root, store, 0⟩

/-- `Life::set_cell_alive` (life.rs lines 76–85): expand the root until
the position is in range, then set the cell; the expansion loop is by
fuel. -/
def Life.set_cell_alive : Nat → Life → Position → Life :=
  Nat.rec (motive := fun _ => Life → Position → Life)
    (fun l _ => l)
    (fun _ setF l pos =>
    if pos.x < min_coord l.store l.root ∨ pos.y < min_coord l.store l.root ∨
       pos.x > max_coord l.store l.root ∨ pos.y > max_coord l.store l.root then
      let (root, store) := expand l.root l.store
      setF ⟨root, store, l.generation⟩ pos
    else
      let (root, store) := Engine.set_cell_alive 100 l.root l.store pos
      ⟨root, store, l.generation⟩)

/-- `Life::set_step_log_2` (life.rs lines 111–113). -/
def Life.set_step_log_2 (l : Life) (k : Nat) : Life :=
  { l with store := l.store.set_step_log_2 k }

/-- `Life::step_size` (life.rs lines 103–105). -/
def Life.step_size (l : Life) : Nat := 1 <<< l.store.step_log_2

/-- `Life::pad` (life.rs lines 115–125): expand until the root level is
at least `INITIAL_LEVEL`, the step exponent fits, and each quadrant's
population sits in its inner sub-sub-node; the loop is by fuel. -/
def Life.pad : Nat → Life → Life :=
  Nat.rec (motive := fun _ => Life → Life)
    (fun l => l)
    (fun _ padF l =>
    let s := l.store
    let r := l.root
    if (s.node r).level < INITIAL_LEVEL ∨
       s.step_log_2 > (s.node r).level - 2 ∨
       (s.node (neOf s r)).population ≠
         (s.node (swOf s (swOf s (neOf s r)))).population ∨
       (s.node (nwOf s r)).population ≠
         (s.node (seOf s (seOf s (nwOf s r)))).population ∨
       (s.node (seOf s r)).population ≠
         (s.node (nwOf s (nwOf s (seOf s r)))).population ∨
       (s.node (swOf s r)).population ≠
         (s.node (neOf s (neOf s (swOf s r)))).population then
      let (root, store) := expand r s
      padF ⟨root, store, l.generation⟩
    else l)

/-- `Life::step` (life.rs lines 127–131): pad, advance the root, add the
step size to the generation counter. -/
def Life.step (l : Life) : Life :=
  let l := l.pad 100
  let (root, store) := Engine.step 100 l.root l.store
  ⟨root, store, l.generation + Life.step_size ⟨root, store, l.generation⟩⟩

/-- `Life::get_alive_cells` (life.rs lines 87–89). -/
def Life.get_alive_cells (l : Life) : List Position :=
  Engine.get_alive_cells 100 l.root l.store

/-- The cache arrays of `s'` are at least as long as those of `s`
(every store operation only appends or updates in place). -/
def Store.growsTo (s s' : Store) : Prop :=
  listLen s.jumps ≤ listLen s'.jumps ∧ listLen s.steps ≤ listLen s'.steps

/-- The empty level-5 node in a fresh store, with step exponent 3. -/
def c4Store : Store :=
  ((Store.new.create_empty 5).2).set_step_log_2 3

/-- The id of the empty level-5 node in `c4Store`. -/
def c4Id : Nat := (Store.new.create_empty 5).1

/-- The empty level-5 node in a fresh store, with the default step
exponent 0 (so that neither the `k = level - 2` branch of `step` nor a
warm cache applies). -/
def c6Store : Store := (Store.new.create_empty 5).2

/-- The five-cell glider universe of the spec's test scenarios:
`Life::new` with cells (1,0), (2,1), (0,2), (1,2), (2,2) set alive. -/
def glider : Life :=
  [(⟨1, 0⟩ : Position), ⟨2, 1⟩, ⟨0, 2⟩, ⟨1, 2⟩, ⟨2, 2⟩].foldl
    (fun l p => Life.set_cell_alive 100 l p) Life.new


/-- `s'` extends `s` by appending nodes only (every store operation
leaves existing `nodes` entries in place and at their index). -/
def nodesExtend (s s' : Store) : Prop :=
  ∃ tl, s'.nodes = listApp s.nodes tl

/-- A store used to separate two interning calls by an unrelated
creation: the base `⟨.leaf 3, 4, 2⟩` is interned first, then a
different leaf. -/
def c7Store : Store :=
  ((Store.new.add_node ⟨.leaf 3, 4, 2⟩).2.create_leaf 7).2

/-- Node-local population correctness: a leaf's `population` field is
the popcount of its board; an interior node's is the sum of its four
children's `population` fields (children read through the store). -/
def PopNodeOk (s : Store) (n : Node) : Prop :=
  match n.kind with
  | .leaf g => n.population = popCount 256 g
  | .interior a b c d =>
      n.population = (s.node a).population + (s.node b).population +
        (s.node c).population + (s.node d).population

/-- Node-local id validity: an interior node's four children are
in-range indices of the node array. -/
def IdsNodeOk (s : Store) (n : Node) : Prop :=
  match n.kind with
  | .leaf _ => True
  | .interior a b c d =>
      a < listLen s.nodes ∧ b < listLen s.nodes ∧
        c < listLen s.nodes ∧ d < listLen s.nodes

/-- Every node of the store satisfies both node-local invariants. -/
def PopOk (s : Store) : Prop :=
  ∀ i, i < listLen s.nodes →
    PopNodeOk s (s.node i) ∧ IdsNodeOk s (s.node i)

/-- Every entry of the `empties` cache is an in-range node id. -/
def EmptiesOk (s : Store) : Prop :=
  ∀ j, j < listLen s.empties → listGetD 0 s.empties j < listLen s.nodes

/-- The store invariant carried through every operation. -/
def Inv (s : Store) : Prop := PopOk s ∧ EmptiesOk s

/-- The stores reachable from `Store::new` by the primitive store
operations.  Every public operation of the engine (`jump`, `step`,
`expand`, the cell setters, the `Life` facade) updates the store only
through these primitives.  `create_interior` carries the fact that the
four child ids came from the store itself (in Rust a `NodeId`/
`Rc<Node>` can only be obtained from a store operation), and
`create_empty` carries `4 ≤ level` (a smaller level underflows or
recurses forever in the source, which never requests one). -/
inductive Reachable : Store → Prop where
  | base : Reachable Store.new
  | create_leaf (s : Store) (g : Grid) :
      Reachable s → Reachable (s.create_leaf g).2
  | create_interior (s : Store) (t : NodeTemplate)
      (h1 : t.nw < listLen s.nodes) (h2 : t.ne < listLen s.nodes)
      (h3 : t.sw < listLen s.nodes) (h4 : t.se < listLen s.nodes) :
      Reachable s → Reachable (s.create_interior t).2
  | create_empty (s : Store) (level : Nat) (h : 4 ≤ level) :
      Reachable s → Reachable (s.create_empty level).2
  | set_step (s : Store) (k : Nat) :
      Reachable s → Reachable (s.set_step_log_2 k)
  | add_step (s : Store) (id r : Nat) :
      Reachable s → Reachable (s.add_step id r)
  | add_jump (s : Store) (id r : Nat) :
      Reachable s → Reachable (s.add_jump id r)

/-- A small reachable store: a nonempty leaf, then the level-5 empty
tower. -/
def c8Store : Store := ((Store.new.create_leaf 3).2.create_empty 5).2

/-- First operation on a fresh store: the level-8 empty tower.  The
`empties` cache receives the level-4..8 empties at indices 0..4. -/
def c9s1 : Nat × Store := Store.new.create_empty 8

/-- A nonempty level-4 leaf (board 1, population 1). -/
def c9s2 : Nat × Store := c9s1.2.create_leaf 1

/-- A level-5 interior node with the leaf at all four corners. -/
def c9s3 : Nat × Store :=
  c9s2.2.create_interior ⟨c9s2.1, c9s2.1, c9s2.1, c9s2.1⟩

/-- `expand` of the level-5 node in that store. -/
def c9X : Nat × Store := expand c9s3.1 c9s3.2

end Engine

namespace SmStore

/-- `NodeBase` (smeagol/src/node.rs): an 8×8 board (eight 8-bit rows),
a 16×16 board (sixteen 16-bit rows), or four child identifiers. -/
inductive NodeBase where
  | levelThree (board : List Nat)
  | levelFour (board : List Nat)
  | interior (nw ne sw se : Nat)
deriving DecidableEq, Repr

/-- `Node` (smeagol/src/node.rs): base value plus the cached `level`
and `population` fields. -/
structure SNode where
  base : NodeBase
  level : Nat
  population : Nat
deriving DecidableEq, Repr

/-- `Store` (smeagol/src/node/store.rs), restricted to the `nodes`
array; the `ids` hash map is modelled by searching `nodes` for a
bit-equal base, and the `steps`/`jumps` cache arrays are omitted
because node creation never reads them. -/
structure Store where
  nodes : List SNode
deriving DecidableEq, Repr

/-- `MAX_LEVEL` (smeagol/src/node.rs). -/
def MAX_LEVEL : Nat := 64

/-- `NodeTemplate` (smeagol/src/node.rs). -/
structure NodeTemplate where
  nw : Nat
  ne : Nat
  sw : Nat
  se : Nat
deriving DecidableEq, Repr

def Store.new : Store := ⟨[]⟩

/-- Out-of-range ids never occur; the default mirrors an arbitrary
fixed node. -/
def defaultSNode : SNode := ⟨.levelThree [], 0, 0⟩

/-- `Store::get` (smeagol/src/node/store.rs). -/
def Store.get (s : Store) (id : Nat) : SNode := s.nodes.getD id defaultSNode

/-- `Store::add_node` (store/create.rs lines 7–20): return the existing
id of a bit-equal base, else append. -/
def Store.add_node (s : Store) (node : SNode) : Nat × Store :=
  match s.nodes.findIdx? (fun n => decide (n.base = node.base)) with
  | some id => (id, s)
  | none => (s.nodes.length, ⟨s.nodes ++ [node]⟩)

/-- `Store::create_level_3` (store/create.rs lines 37–44). -/
def Store.create_level_3 (s : Store) (board : List Nat) : Nat × Store :=
  s.add_node ⟨.levelThree board, 3, (board.map (SmTree.popcountW 8)).sum⟩

/-- `Store::create_level_4` (store/create.rs lines 61–68). -/
def Store.create_level_4 (s : Store) (board : List Nat) : Nat × Store :=
  s.add_node ⟨.levelFour board, 4, (board.map (SmTree.popcountW 16)).sum⟩

/-- `u16::from_be_bytes([w, e])` (store/create.rs lines 112–129): the
west byte is the high byte of the combined 16-bit row. -/
def combineRow (w e : Nat) : Nat := ((w % 256) <<< 8) ||| (e % 256)

/-- `Store::create_interior` (store/create.rs lines 75–153).  A panic
(`assert_eq!`, `panic!()` or `unreachable!()`) is modelled as `none`.
Faithful to the source, `level` is read from the `ne` child and the
first `assert_eq!` compares the `ne` child's level with itself, so the
`nw` child's level is never checked. -/
def Store.create_interior (s : Store) (t : NodeTemplate) :
    Option (Nat × Store) :=
  let level := (s.get t.ne).level
  if (s.get t.ne).level = level ∧ (s.get t.sw).level = level ∧
      (s.get t.se).level = level then
    let new_level := level + 1
    if new_level > MAX_LEVEL then none
    else if new_level = 4 then
      match (s.get t.nw).base, (s.get t.ne).base,
          (s.get t.sw).base, (s.get t.se).base with
      | .levelThree nwb, .levelThree neb, .levelThree swb,
          .levelThree seb =>
          some (s.create_level_4
            (List.zipWith combineRow nwb neb ++
              List.zipWith combineRow swb seb))
      | _, _, _, _ => none
    else
      some (s.add_node ⟨.interior t.nw t.ne t.sw t.se, new_level,
        (s.get t.nw).population + (s.get t.ne).population +
          (s.get t.sw).population + (s.get t.se).population⟩)
  else none

/-- An all-dead 8×8 level-3 node interned into a fresh store. -/
def c10s1 : Nat × Store :=
  Store.new.create_level_3 [0, 0, 0, 0, 0, 0, 0, 0]

/-- The id of the level-3 node. -/
def c10Nw : Nat := c10s1.1

/-- Additionally intern an all-dead 16×16 level-4 node. -/
def c10s2 : Nat × Store :=
  c10s1.2.create_level_4 [0, 0, 0, 0, 0, 0, 0, 0, 0, 0, 0, 0, 0, 0, 0, 0]

/-- The id of the level-4 node. -/
def c10Ne : Nat := c10s2.1

/-- The store holding both leaves. -/
def c10Store : Store := c10s2.2

end SmStore

/-!
# Theorems
-/

namespace BitBoard

/-- Subtracting one from a `Fin 16` strictly above zero. -/
theorem fin16_sub_one {r : Nat} (h : r < 16) (h1 : 1 ≤ r) (h' : r - 1 < 16) :
    (⟨r, h⟩ : Fin 16) - 1 = ⟨r - 1, h'⟩ := by
  apply Fin.ext
  simp [Fin.sub_def]
  omega

/-- Adding one to a `Fin 16` strictly below fifteen. -/
theorem fin16_add_one {r : Nat} (h : r < 16) (h14 : r ≤ 14) (h' : r + 1 < 16) :
    (⟨r, h⟩ : Fin 16) + 1 = ⟨r + 1, h'⟩ := by
  apply Fin.ext
  simp [Fin.add_def]
  omega

/-- C1: for every 16×16 bit-board, `step_once_u16x16` applies the
standard B3/S23 rule at every cell not in the top or bottom row: the
output cell at row `r` (1 ≤ r ≤ 14), bit `i`, is alive iff it has
exactly 3 live neighbors, or exactly 2 live neighbors and is alive,
where neighbors beyond the left or right board edge count as dead. -/
theorem step_once_u16x16_b3s23 (board : Vec16) (wf : ∀ l, board l < 2 ^ 16)
    (r : Nat) (h1 : 1 ≤ r) (h14 : r ≤ 14) (i : Nat) (hi : i < 16) :
    cellAt (step_once_u16x16 board) r i =
      b3s23 (cellAt board r i) (liveNeighbors board r i) := by
  have hr16 : r < 16 := by omega
  have hprev : r - 1 < 16 := by omega
  have hnext : r + 1 < 16 := by omega
  unfold cellAt liveNeighbors westOf eastOf cellAt b3s23
  simp only [dif_pos hr16, dif_pos hprev, dif_pos hnext]
  simp only [step_once_u16x16, CountsU16x16.add, CountsU16x16.new, vand, vxor,
    vor, vnot, vshl, vshr, rotate_lanes_up_u16x16, rotate_lanes_down_u16x16]
  rw [fin16_sub_one hr16 h1 hprev, fin16_add_one hr16 h14 hnext]
  set p := board ⟨r - 1, hprev⟩ with hpdef
  set c := board ⟨r, hr16⟩ with hcdef
  set q := board ⟨r + 1, hnext⟩ with hqdef
  clear_value p c q
  clear hpdef hcdef hqdef wf
  simp only [Nat.testBit_or, Nat.testBit_and, Nat.testBit_xor,
    Nat.testBit_mod_two_pow, Nat.testBit_shiftLeft, Nat.testBit_shiftRight,
    Nat.testBit_two_pow_sub_one, Nat.zero_testBit, hi, decide_True,
    Nat.add_comm 1 i]
  rcases Nat.eq_zero_or_pos i with rfl | hpos
  case inl =>
    simp only [show decide ((0 : Nat) ≥ 1) = false from rfl, if_pos rfl,
      Nat.zero_add, Bool.false_and, Bool.and_false, Bool.toNat_false,
      Nat.add_zero]
    generalize p.testBit 1 = a1
    generalize p.testBit 0 = a2
    generalize c.testBit 1 = a3
    generalize c.testBit 0 = a4
    generalize q.testBit 1 = a5
    generalize q.testBit 0 = a6
    revert a1 a2 a3 a4 a5 a6
    decide
  case inr =>
    have h1i : 1 ≤ i := hpos
    simp only [ge_iff_le, decide_eq_true h1i, if_neg (show ¬i = 0 by omega),
      Bool.true_and]
    generalize p.testBit (i + 1) = a1
    generalize p.testBit i = a2
    generalize p.testBit (i - 1) = a3
    generalize c.testBit (i + 1) = a4
    generalize c.testBit i = a5
    generalize c.testBit (i - 1) = a6
    generalize q.testBit (i + 1) = a7
    generalize q.testBit i = a8
    generalize q.testBit (i - 1) = a9
    revert a1 a2 a3 a4 a5 a6 a7 a8 a9
    decide

/-- Witness for C1 at a concrete board, row and column. -/
theorem step_once_u16x16_b3s23_witness :
    ((∀ l, gliderBoard l < 2 ^ 16) ∧ 1 ≤ 3 ∧ 3 ≤ 14 ∧ 1 < 16) ∧
      cellAt (step_once_u16x16 gliderBoard) 3 1 =
        b3s23 (cellAt gliderBoard 3 1) (liveNeighbors gliderBoard 3 1) :=
  ⟨⟨by decide, by decide, by decide, by decide⟩,
    step_once_u16x16_b3s23 gliderBoard (by decide) 3 (by decide) (by decide)
      1 (by decide)⟩

end BitBoard

namespace RcTree

open Geom

/-- C2: `set_cells_alive` on the `lib.rs` edition drops pre-existing
alive cells in quadrants that receive no new positions: on a node whose
only alive cell is at `(-5, -5)`, inserting `(4, 4)` kills `(-5, -5)`
(the empty northwest slice makes the code replace the northwest child
with a fresh empty node). -/
theorem set_cells_alive_drops_cells :
    c2Node.get_cell ⟨-5, -5⟩ = Cell.alive ∧
      (c2Node.set_cells_alive [⟨4, 4⟩]).get_cell ⟨4, 4⟩ = Cell.alive ∧
      (c2Node.set_cells_alive [⟨4, 4⟩]).get_cell ⟨-5, -5⟩ = Cell.dead := by
  decide

end RcTree

namespace SmTree

open Geom

/-- C3: `contains_alive_cells` is wrong in the
`(Southwest, Southeast)` quadrant combination: on a node whose only
alive cell is at `(4, 4)`, the query rectangle `(-2, 2)–(5, 5)` spans
the southwest and southeast quadrants and contains the alive cell, yet
the function returns `false` (it descends into the northeast child
where the southeast child was meant). -/
theorem contains_alive_cells_sw_se_wrong :
    c3Node.get_cell ⟨4, 4⟩ = Cell.alive ∧
      ((-2 : Int) ≤ 4 ∧ (4 : Int) ≤ 5 ∧ (2 : Int) ≤ 4 ∧ (4 : Int) ≤ 5) ∧
      c3Node.contains_alive_cells ⟨-2, 2⟩ ⟨5, 5⟩ = false := by
  decide

end SmTree

namespace Engine

open Geom

/-- `jump` at positive fuel performs one unfolding of its body. -/
theorem jump_succ (fuel id : Nat) (s : Store) :
    jump (fuel + 1) id s = jump_body (jump fuel) id s := rfl

/-- `step` at positive fuel performs one unfolding of its body, with
`jump` at the same recursion depth. -/
theorem step_succ (fuel id : Nat) (s : Store) :
    step (fuel + 1) id s = step_body (step fuel) (jump fuel) id s := rfl

/-- `get_cell` at positive fuel performs one unfolding of its body. -/
theorem get_cell_succ (fuel id : Nat) (s : Store) (pos : Position) :
    get_cell (fuel + 1) id s pos = get_cell_body (get_cell fuel) id s pos :=
  rfl

/-- C4: on an interior node whose level `L` satisfies
`step_log_2 = L - 2` and whose step-cache slot is empty, `step` returns
the same node identifier as `jump` (its `k = L - 2` branch delegates to
`jump` before caching). -/
theorem step_eq_jump_at_max (fuel id : Nat) (s : Store)
    (nw ne sw se : Nat)
    (hcache : s.get_step id = none)
    (hkind : (s.node id).kind = .interior nw ne sw se)
    (hlvl : 5 ≤ (s.node id).level)
    (hk : s.step_log_2 = (s.node id).level - 2) :
    (step (fuel + 1) id s).1 = (jump fuel id s).1 := by
  rw [step_succ]
  unfold step_body
  rw [hcache, hkind]
  simp only [hk]
  rcases hj : jump fuel id s with ⟨st, s2⟩
  simp [hj]

/-- Witness for C4 at a concrete store and node. -/
theorem step_eq_jump_at_max_witness :
    (c4Store.get_step c4Id = none ∧
      (c4Store.node c4Id).kind = .interior 0 0 0 0 ∧
      5 ≤ (c4Store.node c4Id).level ∧
      c4Store.step_log_2 = (c4Store.node c4Id).level - 2) ∧
    (step 2 c4Id c4Store).1 = (jump 1 c4Id c4Store).1 :=
  ⟨⟨by decide, by decide, by decide, by decide⟩,
    step_eq_jump_at_max 1 c4Id c4Store 0 0 0 0 (by decide) (by decide)
      (by decide) (by decide)⟩


/-! ### Small facts about the recursor-form list helpers -/

theorem listApp_nil {α : Type} (ys : List α) : listApp [] ys = ys := rfl

theorem listApp_cons {α : Type} (a : α) (as ys : List α) :
    listApp (a :: as) ys = a :: listApp as ys := rfl

theorem listLen_nil {α : Type} : listLen ([] : List α) = 0 := rfl

theorem listLen_cons {α : Type} (a : α) (as : List α) :
    listLen (a :: as) = listLen as + 1 := rfl

theorem listGetD_cons_succ {α : Type} (d a : α) (as : List α) (n : Nat) :
    listGetD d (a :: as) (n + 1) = listGetD d as n := rfl

theorem listSet_cons_succ {α : Type} (x a : α) (as : List α) (n : Nat) :
    listSet x (a :: as) (n + 1) = a :: listSet x as n := rfl

theorem listLen_listApp {α : Type} (xs ys : List α) :
    listLen (listApp xs ys) = listLen xs + listLen ys := by
  induction xs with
  | nil => simp [listApp_nil, listLen_nil]
  | cons a as ih => simp [listApp_cons, listLen_cons, ih]; omega

theorem listGetD_listApp {α : Type} (d : α) (xs ys : List α) (n : Nat)
    (h : n < listLen xs) :
    listGetD d (listApp xs ys) n = listGetD d xs n := by
  induction xs generalizing n with
  | nil => simp [listLen_nil] at h
  | cons a as ih =>
      cases n with
      | zero => rfl
      | succ m =>
          rw [listApp_cons, listGetD_cons_succ, listGetD_cons_succ]
          exact ih m (by simp [listLen_cons] at h; omega)

theorem listLen_listSet {α : Type} (x : α) (l : List α) (n : Nat) :
    listLen (listSet x l n) = listLen l := by
  induction l generalizing n with
  | nil => rfl
  | cons a as ih =>
      cases n with
      | zero => rfl
      | succ m => rw [listSet_cons_succ, listLen_cons, listLen_cons, ih]

theorem listGetD_listSet_self {α : Type} (d x : α) (l : List α) (n : Nat)
    (h : n < listLen l) :
    listGetD d (listSet x l n) n = x := by
  induction l generalizing n with
  | nil => simp [listLen_nil] at h
  | cons a as ih =>
      cases n with
      | zero => rfl
      | succ m =>
          rw [listSet_cons_succ, listGetD_cons_succ]
          exact ih m (by simp [listLen_cons] at h; omega)

/-! ### The store only grows -/

theorem growsTo_refl (s : Store) : s.growsTo s := ⟨le_refl _, le_refl _⟩

theorem growsTo_trans {s t u : Store} (h1 : s.growsTo t)
    (h2 : t.growsTo u) : s.growsTo u :=
  ⟨le_trans h1.1 h2.1, le_trans h1.2 h2.2⟩

theorem add_node_grows (s : Store) (n : Node) :
    s.growsTo (s.add_node n).2 := by
  unfold Store.add_node
  rcases findKind s.nodes n.kind with _ | i
  · exact ⟨by simp [listLen_listApp], by simp [listLen_listApp]⟩
  · exact growsTo_refl s

theorem create_leaf_grows (s : Store) (g : Grid) :
    s.growsTo (s.create_leaf g).2 := add_node_grows s _

theorem create_interior_grows (s : Store) (t : NodeTemplate) :
    s.growsTo (s.create_interior t).2 := add_node_grows s _

theorem create_empty_rec_grows (level : Nat) (s : Store) :
    s.growsTo (Store.create_empty_rec level s).2 := by
  induction level generalizing s with
  | zero => exact growsTo_refl s
  | succ l ih =>
      show s.growsTo (Store.create_empty_rec (l + 1) s).2
      rw [show Store.create_empty_rec (l + 1) s =
        (if l + 1 < listLen s.empties then (listGetD 0 s.empties (l + 1), s)
         else
          let (empty, s') :=
            if l + 1 = 4 then s.create_leaf 0
            else
              let (e, s₁) := Store.create_empty_rec l s
              s₁.create_interior ⟨e, e, e, e⟩
          (empty, { s' with empties := listApp s'.empties [empty] })) from rfl]
      split
      · exact growsTo_refl s
      · rcases hb : (if l + 1 = 4 then s.create_leaf 0
            else
              let (e, s₁) := Store.create_empty_rec l s
              s₁.create_interior ⟨e, e, e, e⟩) with ⟨emp, s3⟩
        have h3 : s.growsTo s3 := by
          split at hb
          · have h4 := create_leaf_grows s 0
            rw [hb] at h4
            exact h4
          · rcases hrec : Store.create_empty_rec l s with ⟨e1, s1⟩
            have h1 := ih s
            rw [hrec] at h1
            simp only [hrec] at hb
            have h2 := create_interior_grows s1 ⟨e1, e1, e1, e1⟩
            rw [hb] at h2
            exact growsTo_trans h1 h2
        simp only [hb]
        exact ⟨h3.1, h3.2⟩

theorem create_empty_grows (s : Store) (level : Nat) :
    s.growsTo (s.create_empty level).2 := create_empty_rec_grows level s

theorem add_jump_grows (s : Store) (id j : Nat) :
    s.growsTo (s.add_jump id j) := by
  unfold Store.add_jump
  exact ⟨by simp [listLen_listSet], le_refl _⟩

theorem add_step_grows (s : Store) (id j : Nat) :
    s.growsTo (s.add_step id j) := by
  unfold Store.add_step
  exact ⟨le_refl _, by simp [listLen_listSet]⟩


theorem center_subnode_grows (id : Nat) (s : Store) :
    s.growsTo (center_subnode id s).2 := by
  unfold center_subnode
  rcases hk : (s.node id).kind with g | ⟨nw, ne, sw, se⟩ <;> simp only [hk]
  · exact growsTo_refl s
  · split
    · exact create_leaf_grows s _
    · exact create_interior_grows s _

theorem centered_horiz_grows (s : Store) (w e : Nat) :
    s.growsTo (centered_horiz s w e).2 := by
  unfold centered_horiz
  rcases hw : (s.node w).kind with g | ⟨a, b, c, d⟩ <;>
    rcases he : (s.node e).kind with g' | ⟨a', b', c', d'⟩ <;>
      simp only [hw, he]
  · exact growsTo_refl s
  · exact growsTo_refl s
  · exact growsTo_refl s
  · split
    · exact create_leaf_grows s _
    · exact create_interior_grows s _

theorem centered_vert_grows (s : Store) (n m : Nat) :
    s.growsTo (centered_vert s n m).2 := by
  unfold centered_vert
  rcases hn : (s.node n).kind with g | ⟨a, b, c, d⟩ <;>
    rcases hm : (s.node m).kind with g' | ⟨a', b', c', d'⟩ <;>
      simp only [hn, hm]
  · exact growsTo_refl s
  · exact growsTo_refl s
  · exact growsTo_refl s
  · split
    · exact create_leaf_grows s _
    · exact create_interior_grows s _

theorem north_subsubnode_grows (id : Nat) (s : Store) :
    s.growsTo (north_subsubnode id s).2 := centered_horiz_grows s _ _

theorem south_subsubnode_grows (id : Nat) (s : Store) :
    s.growsTo (south_subsubnode id s).2 := centered_horiz_grows s _ _

theorem west_subsubnode_grows (id : Nat) (s : Store) :
    s.growsTo (west_subsubnode id s).2 := centered_vert_grows s _ _

theorem east_subsubnode_grows (id : Nat) (s : Store) :
    s.growsTo (east_subsubnode id s).2 := centered_vert_grows s _ _

theorem jump_level_5_grows (s : Store) (nw ne sw se : Nat) :
    s.growsTo (jump_level_5 s nw ne sw se).2 := create_leaf_grows s _

theorem step_level_5_grows (s : Store) (k nw ne sw se : Nat) :
    s.growsTo (step_level_5 s k nw ne sw se).2 := create_leaf_grows s _

theorem horiz_jump_grows (jumpF : Nat → Store → Nat × Store)
    (hj : ∀ id s, Store.growsTo s (jumpF id s).2) (s : Store) (w e : Nat) :
    s.growsTo (horiz_jump jumpF s w e).2 := by
  unfold horiz_jump
  rcases ht : s.create_interior ⟨neOf s w, nwOf s e, seOf s w, swOf s e⟩
    with ⟨t, s1⟩
  have h1 := create_interior_grows s ⟨neOf s w, nwOf s e, seOf s w, swOf s e⟩
  rw [ht] at h1
  simp only [ht]
  exact growsTo_trans h1 (hj t s1)

theorem vert_jump_grows (jumpF : Nat → Store → Nat × Store)
    (hj : ∀ id s, Store.growsTo s (jumpF id s).2) (s : Store) (n m : Nat) :
    s.growsTo (vert_jump jumpF s n m).2 := by
  unfold vert_jump
  rcases ht : s.create_interior ⟨swOf s n, seOf s n, nwOf s m, neOf s m⟩
    with ⟨t, s1⟩
  have h1 := create_interior_grows s ⟨swOf s n, seOf s n, nwOf s m, neOf s m⟩
  rw [ht] at h1
  simp only [ht]
  exact growsTo_trans h1 (hj t s1)

set_option maxHeartbeats 2000000 in
theorem jump_grows : ∀ (fuel id : Nat) (s : Store),
    s.growsTo (jump fuel id s).2 := by
  intro fuel
  induction fuel with
  | zero => intro id s; exact growsTo_refl s
  | succ fuel ih =>
      intro id s
      rw [jump_succ]
      unfold jump_body
      rcases hc : s.get_jump id with _ | j
      · simp only [hc]
        rcases hk : (s.node id).kind with g | ⟨nw, ne, sw, se⟩ <;>
          simp only [hk]
        · exact growsTo_refl s
        · split
          · exact create_empty_grows s _
          · split
            · exact jump_level_5_grows s nw ne sw se
            · rcases h1 : jump fuel nw s with ⟨a, s1⟩
              have g1 := ih nw s
              simp only [h1] at g1
              simp only [h1]
              rcases h2 : horiz_jump (jump fuel) s1 nw ne with ⟨b, s2⟩
              have g2 := horiz_jump_grows (jump fuel) (fun i2 s2 => ih i2 s2) s1 nw ne
              simp only [h2] at g2
              simp only [h2]
              rcases h3 : jump fuel ne s2 with ⟨c, s3⟩
              have g3 := ih ne s2
              simp only [h3] at g3
              simp only [h3]
              rcases h4 : vert_jump (jump fuel) s3 nw sw with ⟨d, s4⟩
              have g4 := vert_jump_grows (jump fuel) (fun i2 s2 => ih i2 s2) s3 nw sw
              simp only [h4] at g4
              simp only [h4]
              rcases h5 : center_subnode id s4 with ⟨e0, s5⟩
              have g5 := center_subnode_grows id s4
              simp only [h5] at g5
              simp only [h5]
              rcases h6 : jump fuel e0 s5 with ⟨e, s6⟩
              have g6 := ih e0 s5
              simp only [h6] at g6
              simp only [h6]
              rcases h7 : vert_jump (jump fuel) s6 ne se with ⟨f, s7⟩
              have g7 := vert_jump_grows (jump fuel) (fun i2 s2 => ih i2 s2) s6 ne se
              simp only [h7] at g7
              simp only [h7]
              rcases h8 : jump fuel sw s7 with ⟨g, s8⟩
              have g8 := ih sw s7
              simp only [h8] at g8
              simp only [h8]
              rcases h9 : horiz_jump (jump fuel) s8 sw se with ⟨h, s9⟩
              have g9 := horiz_jump_grows (jump fuel) (fun i2 s2 => ih i2 s2) s8 sw se
              simp only [h9] at g9
              simp only [h9]
              rcases h10 : jump fuel se s9 with ⟨i, s10⟩
              have g10 := ih se s9
              simp only [h10] at g10
              simp only [h10]
              rcases h11 : s10.create_interior ⟨a, b, d, e⟩ with ⟨w0, s11⟩
              have g11 := create_interior_grows s10 ⟨a, b, d, e⟩
              simp only [h11] at g11
              simp only [h11]
              rcases h12 : jump fuel w0 s11 with ⟨w, s12⟩
              have g12 := ih w0 s11
              simp only [h12] at g12
              simp only [h12]
              rcases h13 : s12.create_interior ⟨b, c, e, f⟩ with ⟨x0, s13⟩
              have g13 := create_interior_grows s12 ⟨b, c, e, f⟩
              simp only [h13] at g13
              simp only [h13]
              rcases h14 : jump fuel x0 s13 with ⟨x, s14⟩
              have g14 := ih x0 s13
              simp only [h14] at g14
              simp only [h14]
              rcases h15 : s14.create_interior ⟨d, e, g, h⟩ with ⟨y0, s15⟩
              have g15 := create_interior_grows s14 ⟨d, e, g, h⟩
              simp only [h15] at g15
              simp only [h15]
              rcases h16 : jump fuel y0 s15 with ⟨y, s16⟩
              have g16 := ih y0 s15
              simp only [h16] at g16
              simp only [h16]
              rcases h17 : s16.create_interior ⟨e, f, h, i⟩ with ⟨z0, s17⟩
              have g17 := create_interior_grows s16 ⟨e, f, h, i⟩
              simp only [h17] at g17
              simp only [h17]
              rcases h18 : jump fuel z0 s17 with ⟨z, s18⟩
              have g18 := ih z0 s17
              simp only [h18] at g18
              simp only [h18]
              rcases h19 : s18.create_interior ⟨w, x, y, z⟩ with ⟨j2, s19⟩
              have g19 := create_interior_grows s18 ⟨w, x, y, z⟩
              simp only [h19] at g19
              simp only [h19]
              exact growsTo_trans (growsTo_trans (growsTo_trans (growsTo_trans (growsTo_trans (growsTo_trans (growsTo_trans (growsTo_trans (growsTo_trans (growsTo_trans (growsTo_trans (growsTo_trans (growsTo_trans (growsTo_trans (growsTo_trans (growsTo_trans (growsTo_trans (growsTo_trans (growsTo_trans g1 g2) g3) g4) g5) g6) g7) g8) g9) g10) g11) g12) g13) g14) g15) g16) g17) g18) g19)
                (add_jump_grows s19 id j2)
      · simp only [hc]
        exact growsTo_refl s

set_option maxHeartbeats 2000000 in
theorem step_grows : ∀ (fuel id : Nat) (s : Store),
    s.growsTo (step fuel id s).2 := by
  intro fuel
  induction fuel with
  | zero => intro id s; exact growsTo_refl s
  | succ fuel ih =>
      intro id s
      rw [step_succ]
      unfold step_body
      rcases hc : s.get_step id with _ | st
      · simp only [hc]
        rcases hk : (s.node id).kind with g | ⟨nw, ne, sw, se⟩ <;>
          simp only [hk]
        · exact growsTo_refl s
        · split
          · rcases hj : jump fuel id s with ⟨st, s1⟩
            have g1 := jump_grows fuel id s
            simp only [hj] at g1
            simp only [hj]
            exact growsTo_trans g1 (add_step_grows s1 id st)
          · split
            · exact create_empty_grows s _
            · split
              · rcases h5 : step_level_5 s s.step_log_2 nw ne sw se
                  with ⟨st, s1⟩
                have g1 := step_level_5_grows s s.step_log_2 nw ne sw se
                simp only [h5] at g1
                simp only [h5]
                exact growsTo_trans g1 (add_step_grows s1 id st)
              · rcases h1 : center_subnode nw s with ⟨a, s1⟩
                have g1 := center_subnode_grows nw s
                simp only [h1] at g1
                simp only [h1]
                rcases h2 : north_subsubnode id s1 with ⟨b, s2⟩
                have g2 := north_subsubnode_grows id s1
                simp only [h2] at g2
                simp only [h2]
                rcases h3 : center_subnode ne s2 with ⟨c, s3⟩
                have g3 := center_subnode_grows ne s2
                simp only [h3] at g3
                simp only [h3]
                rcases h4 : west_subsubnode id s3 with ⟨d, s4⟩
                have g4 := west_subsubnode_grows id s3
                simp only [h4] at g4
                simp only [h4]
                rcases h5 : center_subnode id s4 with ⟨e0, s5⟩
                have g5 := center_subnode_grows id s4
                simp only [h5] at g5
                simp only [h5]
                rcases h6 : center_subnode e0 s5 with ⟨e, s6⟩
                have g6 := center_subnode_grows e0 s5
                simp only [h6] at g6
                simp only [h6]
                rcases h7 : east_subsubnode id s6 with ⟨f, s7⟩
                have g7 := east_subsubnode_grows id s6
                simp only [h7] at g7
                simp only [h7]
                rcases h8 : center_subnode sw s7 with ⟨g, s8⟩
                have g8 := center_subnode_grows sw s7
                simp only [h8] at g8
                simp only [h8]
                rcases h9 : south_subsubnode id s8 with ⟨h, s9⟩
                have g9 := south_subsubnode_grows id s8
                simp only [h9] at g9
                simp only [h9]
                rcases h10 : center_subnode se s9 with ⟨i, s10⟩
                have g10 := center_subnode_grows se s9
                simp only [h10] at g10
                simp only [h10]
                rcases h11 : s10.create_interior ⟨a, b, d, e⟩ with ⟨w0, s11⟩
                have g11 := create_interior_grows s10 ⟨a, b, d, e⟩
                simp only [h11] at g11
                simp only [h11]
                rcases h12 : step fuel w0 s11 with ⟨w, s12⟩
                have g12 := ih w0 s11
                simp only [h12] at g12
                simp only [h12]
                rcases h13 : s12.create_interior ⟨b, c, e, f⟩ with ⟨x0, s13⟩
                have g13 := create_interior_grows s12 ⟨b, c, e, f⟩
                simp only [h13] at g13
                simp only [h13]
                rcases h14 : step fuel x0 s13 with ⟨x, s14⟩
                have g14 := ih x0 s13
                simp only [h14] at g14
                simp only [h14]
                rcases h15 : s14.create_interior ⟨d, e, g, h⟩ with ⟨y0, s15⟩
                have g15 := create_interior_grows s14 ⟨d, e, g, h⟩
                simp only [h15] at g15
                simp only [h15]
                rcases h16 : step fuel y0 s15 with ⟨y, s16⟩
                have g16 := ih y0 s15
                simp only [h16] at g16
                simp only [h16]
                rcases h17 : s16.create_interior ⟨e, f, h, i⟩ with ⟨z0, s17⟩
                have g17 := create_interior_grows s16 ⟨e, f, h, i⟩
                simp only [h17] at g17
                simp only [h17]
                rcases h18 : step fuel z0 s17 with ⟨z, s18⟩
                have g18 := ih z0 s17
                simp only [h18] at g18
                simp only [h18]
                rcases h19 : s18.create_interior ⟨w, x, y, z⟩ with ⟨st, s19⟩
                have g19 := create_interior_grows s18 ⟨w, x, y, z⟩
                simp only [h19] at g19
                simp only [h19]
                exact growsTo_trans (growsTo_trans (growsTo_trans (growsTo_trans (growsTo_trans (growsTo_trans (growsTo_trans (growsTo_trans (growsTo_trans (growsTo_trans (growsTo_trans (growsTo_trans (growsTo_trans (growsTo_trans (growsTo_trans (growsTo_trans (growsTo_trans (growsTo_trans (growsTo_trans g1 g2) g3) g4) g5) g6) g7) g8) g9) g10) g11) g12) g13) g14) g15) g16) g17) g18) g19)
                  (add_step_grows s19 id st)
      · simp only [hc]
        exact growsTo_refl s

set_option maxHeartbeats 2000000 in
/-- The recursive (level ≥ 6, nonzero population, cache-miss) branch of
`jump_body` returns a pair `(j, s'.add_jump id j)` with `s'` grown from
`s`. -/
theorem jump_body_rec_shape (jumpF : Nat → Store → Nat × Store)
    (hgrow : ∀ i2 s2, Store.growsTo s2 (jumpF i2 s2).2)
    (id : Nat) (s : Store) (nw ne sw se : Nat)
    (hc : s.get_jump id = none)
    (hkind : (s.node id).kind = .interior nw ne sw se)
    (hpop : (s.node id).population ≠ 0)
    (hlvl : (s.node id).level ≠ 5) :
    ∃ j s', s.growsTo s' ∧ jump_body jumpF id s = (j, s'.add_jump id j) := by
  unfold jump_body
  simp only [hc, hkind]
  rw [if_neg hpop, if_neg hlvl]
  rcases h1 : jumpF nw s with ⟨a, s1⟩
  simp only [h1]
  rcases h2 : horiz_jump jumpF s1 nw ne with ⟨b, s2⟩
  simp only [h2]
  rcases h3 : jumpF ne s2 with ⟨c, s3⟩
  simp only [h3]
  rcases h4 : vert_jump jumpF s3 nw sw with ⟨d, s4⟩
  simp only [h4]
  rcases h5 : center_subnode id s4 with ⟨e0, s5⟩
  simp only [h5]
  rcases h6 : jumpF e0 s5 with ⟨e, s6⟩
  simp only [h6]
  rcases h7 : vert_jump jumpF s6 ne se with ⟨f, s7⟩
  simp only [h7]
  rcases h8 : jumpF sw s7 with ⟨g, s8⟩
  simp only [h8]
  rcases h9 : horiz_jump jumpF s8 sw se with ⟨h, s9⟩
  simp only [h9]
  rcases h10 : jumpF se s9 with ⟨i, s10⟩
  simp only [h10]
  rcases h11 : s10.create_interior ⟨a, b, d, e⟩ with ⟨w0, s11⟩
  simp only [h11]
  rcases h12 : jumpF w0 s11 with ⟨w, s12⟩
  simp only [h12]
  rcases h13 : s12.create_interior ⟨b, c, e, f⟩ with ⟨x0, s13⟩
  simp only [h13]
  rcases h14 : jumpF x0 s13 with ⟨x, s14⟩
  simp only [h14]
  rcases h15 : s14.create_interior ⟨d, e, g, h⟩ with ⟨y0, s15⟩
  simp only [h15]
  rcases h16 : jumpF y0 s15 with ⟨y, s16⟩
  simp only [h16]
  rcases h17 : s16.create_interior ⟨e, f, h, i⟩ with ⟨z0, s17⟩
  simp only [h17]
  rcases h18 : jumpF z0 s17 with ⟨z, s18⟩
  simp only [h18]
  rcases h19 : s18.create_interior ⟨w, x, y, z⟩ with ⟨j2, s19⟩
  simp only [h19]
  refine ⟨j2, s19, ?_, rfl⟩
  have g1 := hgrow nw s
  simp only [h1] at g1
  have g2 := horiz_jump_grows jumpF hgrow s1 nw ne
  simp only [h2] at g2
  have g3 := hgrow ne s2
  simp only [h3] at g3
  have g4 := vert_jump_grows jumpF hgrow s3 nw sw
  simp only [h4] at g4
  have g5 := center_subnode_grows id s4
  simp only [h5] at g5
  have g6 := hgrow e0 s5
  simp only [h6] at g6
  have g7 := vert_jump_grows jumpF hgrow s6 ne se
  simp only [h7] at g7
  have g8 := hgrow sw s7
  simp only [h8] at g8
  have g9 := horiz_jump_grows jumpF hgrow s8 sw se
  simp only [h9] at g9
  have g10 := hgrow se s9
  simp only [h10] at g10
  have g11 := create_interior_grows s10 ⟨a, b, d, e⟩
  simp only [h11] at g11
  have g12 := hgrow w0 s11
  simp only [h12] at g12
  have g13 := create_interior_grows s12 ⟨b, c, e, f⟩
  simp only [h13] at g13
  have g14 := hgrow x0 s13
  simp only [h14] at g14
  have g15 := create_interior_grows s14 ⟨d, e, g, h⟩
  simp only [h15] at g15
  have g16 := hgrow y0 s15
  simp only [h16] at g16
  have g17 := create_interior_grows s16 ⟨e, f, h, i⟩
  simp only [h17] at g17
  have g18 := hgrow z0 s17
  simp only [h18] at g18
  have g19 := create_interior_grows s18 ⟨w, x, y, z⟩
  simp only [h19] at g19
  exact (growsTo_trans (growsTo_trans (growsTo_trans (growsTo_trans (growsTo_trans (growsTo_trans (growsTo_trans (growsTo_trans (growsTo_trans (growsTo_trans (growsTo_trans (growsTo_trans (growsTo_trans (growsTo_trans (growsTo_trans (growsTo_trans (growsTo_trans (growsTo_trans g1 g2) g3) g4) g5) g6) g7) g8) g9) g10) g11) g12) g13) g14) g15) g16) g17) g18) g19)

set_option maxHeartbeats 2000000 in
/-- Every branch of `step_body` except the zero-population
short-circuit returns a pair `(st, s'.add_step id st)` with `s'` grown
from `s`. -/
theorem step_body_pos_shape (stepF jumpF : Nat → Store → Nat × Store)
    (hgrowS : ∀ i2 s2, Store.growsTo s2 (stepF i2 s2).2)
    (hgrowJ : ∀ i2 s2, Store.growsTo s2 (jumpF i2 s2).2)
    (id : Nat) (s : Store) (nw ne sw se : Nat)
    (hc : s.get_step id = none)
    (hkind : (s.node id).kind = .interior nw ne sw se)
    (hbr : s.step_log_2 = (s.node id).level - 2 ∨ (s.node id).population ≠ 0) :
    ∃ st s', s.growsTo s' ∧
      step_body stepF jumpF id s = (st, s'.add_step id st) := by
  unfold step_body
  simp only [hc, hkind]
  by_cases hk : s.step_log_2 = (s.node id).level - 2
  case pos =>
    rw [if_pos hk]
    rcases hj : jumpF id s with ⟨st, s1⟩
    simp only [hj]
    refine ⟨st, s1, ?_, rfl⟩
    have g := hgrowJ id s
    simp only [hj] at g
    exact g
  case neg =>
    rw [if_neg hk]
    have hpop : (s.node id).population ≠ 0 := by
      rcases hbr with hbr | hbr
      case inl => exact absurd hbr hk
      case inr => exact hbr
    rw [if_neg hpop]
    by_cases hl : (s.node id).level = 5
    case pos =>
      rw [if_pos hl]
      rcases h5 : step_level_5 s s.step_log_2 nw ne sw se with ⟨st, s1⟩
      simp only [h5]
      refine ⟨st, s1, ?_, rfl⟩
      have g := step_level_5_grows s s.step_log_2 nw ne sw se
      simp only [h5] at g
      exact g
    case neg =>
      rw [if_neg hl]
      rcases h1 : center_subnode nw s with ⟨a, s1⟩
      simp only [h1]
      rcases h2 : north_subsubnode id s1 with ⟨b, s2⟩
      simp only [h2]
      rcases h3 : center_subnode ne s2 with ⟨c, s3⟩
      simp only [h3]
      rcases h4 : west_subsubnode id s3 with ⟨d, s4⟩
      simp only [h4]
      rcases h5 : center_subnode id s4 with ⟨e0, s5⟩
      simp only [h5]
      rcases h6 : center_subnode e0 s5 with ⟨e, s6⟩
      simp only [h6]
      rcases h7 : east_subsubnode id s6 with ⟨f, s7⟩
      simp only [h7]
      rcases h8 : center_subnode sw s7 with ⟨g, s8⟩
      simp only [h8]
      rcases h9 : south_subsubnode id s8 with ⟨h, s9⟩
      simp only [h9]
      rcases h10 : center_subnode se s9 with ⟨i, s10⟩
      simp only [h10]
      rcases h11 : s10.create_interior ⟨a, b, d, e⟩ with ⟨w0, s11⟩
      simp only [h11]
      rcases h12 : stepF w0 s11 with ⟨w, s12⟩
      simp only [h12]
      rcases h13 : s12.create_interior ⟨b, c, e, f⟩ with ⟨x0, s13⟩
      simp only [h13]
      rcases h14 : stepF x0 s13 with ⟨x, s14⟩
      simp only [h14]
      rcases h15 : s14.create_interior ⟨d, e, g, h⟩ with ⟨y0, s15⟩
      simp only [h15]
      rcases h16 : stepF y0 s15 with ⟨y, s16⟩
      simp only [h16]
      rcases h17 : s16.create_interior ⟨e, f, h, i⟩ with ⟨z0, s17⟩
      simp only [h17]
      rcases h18 : stepF z0 s17 with ⟨z, s18⟩
      simp only [h18]
      rcases h19 : s18.create_interior ⟨w, x, y, z⟩ with ⟨st, s19⟩
      simp only [h19]
      refine ⟨st, s19, ?_, rfl⟩
      have g1 := center_subnode_grows nw s
      simp only [h1] at g1
      have g2 := north_subsubnode_grows id s1
      simp only [h2] at g2
      have g3 := center_subnode_grows ne s2
      simp only [h3] at g3
      have g4 := west_subsubnode_grows id s3
      simp only [h4] at g4
      have g5 := center_subnode_grows id s4
      simp only [h5] at g5
      have g6 := center_subnode_grows e0 s5
      simp only [h6] at g6
      have g7 := east_subsubnode_grows id s6
      simp only [h7] at g7
      have g8 := center_subnode_grows sw s7
      simp only [h8] at g8
      have g9 := south_subsubnode_grows id s8
      simp only [h9] at g9
      have g10 := center_subnode_grows se s9
      simp only [h10] at g10
      have g11 := create_interior_grows s10 ⟨a, b, d, e⟩
      simp only [h11] at g11
      have g12 := hgrowS w0 s11
      simp only [h12] at g12
      have g13 := create_interior_grows s12 ⟨b, c, e, f⟩
      simp only [h13] at g13
      have g14 := hgrowS x0 s13
      simp only [h14] at g14
      have g15 := create_interior_grows s14 ⟨d, e, g, h⟩
      simp only [h15] at g15
      have g16 := hgrowS y0 s15
      simp only [h16] at g16
      have g17 := create_interior_grows s16 ⟨e, f, h, i⟩
      simp only [h17] at g17
      have g18 := hgrowS z0 s17
      simp only [h18] at g18
      have g19 := create_interior_grows s18 ⟨w, x, y, z⟩
      simp only [h19] at g19
      exact (growsTo_trans (growsTo_trans (growsTo_trans (growsTo_trans (growsTo_trans (growsTo_trans (growsTo_trans (growsTo_trans (growsTo_trans (growsTo_trans (growsTo_trans (growsTo_trans (growsTo_trans (growsTo_trans (growsTo_trans (growsTo_trans (growsTo_trans (growsTo_trans g1 g2) g3) g4) g5) g6) g7) g8) g9) g10) g11) g12) g13) g14) g15) g16) g17) g18) g19)

/-- C6 (amended): memo discipline of the evolution engine.  Both `jump`
and `step` consult their cache first, and they populate it in their
computing branches with these exceptions: `jump` does not cache in its
zero-population short-circuit or its level-5 base case, and `step` does
not cache in its zero-population short-circuit.  Stated positively: on
an interior node, if `jump` answers from the cache or takes its
recursive branch (nonzero population and level ≠ 5), the jump cache
afterwards contains the returned id for that node; if `step` answers
from the cache, or `step_log_2 = level - 2`, or the population is
nonzero, the step cache afterwards contains the returned id. -/
theorem memo_discipline_positive_branches (fuel id : Nat) (s : Store)
    (nw ne sw se : Nat)
    (hkind : (s.node id).kind = .interior nw ne sw se)
    (hjlen : id < listLen s.jumps) (hslen : id < listLen s.steps) :
    ((s.get_jump id ≠ none ∨
        ((s.node id).population ≠ 0 ∧ (s.node id).level ≠ 5)) →
      (jump (fuel + 1) id s).2.get_jump id =
        some ((jump (fuel + 1) id s).1)) ∧
    ((s.get_step id ≠ none ∨ s.step_log_2 = (s.node id).level - 2 ∨
        (s.node id).population ≠ 0) →
      (step (fuel + 1) id s).2.get_step id =
        some ((step (fuel + 1) id s).1)) := by
  constructor
  · intro hbr
    rw [jump_succ]
    rcases hc : s.get_jump id with _ | j
    case some =>
      unfold jump_body
      simp only [hc]
    case none =>
      rcases hbr with hbr | ⟨hpop, hlvl⟩
      case inl => exact absurd hc hbr
      case inr =>
        obtain ⟨j, s', hg, heq⟩ := jump_body_rec_shape (jump fuel)
          (fun i2 s2 => jump_grows fuel i2 s2) id s nw ne sw se hc hkind
          hpop hlvl
        rw [heq]
        show Store.get_jump (s'.add_jump id j) id = some j
        unfold Store.get_jump Store.add_jump
        exact listGetD_listSet_self _ _ _ _ (lt_of_lt_of_le hjlen hg.1)
  · intro hbr
    rw [step_succ]
    rcases hc : s.get_step id with _ | st
    case some =>
      unfold step_body
      simp only [hc]
    case none =>
      have hbr2 : s.step_log_2 = (s.node id).level - 2 ∨
          (s.node id).population ≠ 0 := by
        rcases hbr with hbr | hbr
        case inl => exact absurd hc hbr
        case inr => exact hbr
      obtain ⟨st, s', hg, heq⟩ := step_body_pos_shape (step fuel)
        (jump fuel) (fun i2 s2 => step_grows fuel i2 s2)
        (fun i2 s2 => jump_grows fuel i2 s2) id s nw ne sw se hc hkind hbr2
      rw [heq]
      show Store.get_step (s'.add_step id st) id = some st
      unfold Store.get_step Store.add_step
      exact listGetD_listSet_self _ _ _ _ (lt_of_lt_of_le hslen hg.2)

set_option maxRecDepth 1000000 in
/-- Witness for C6 (amended) at a concrete store and node. -/
theorem memo_discipline_positive_branches_witness :
    ((c4Store.node c4Id).kind = .interior 0 0 0 0 ∧
      c4Id < listLen c4Store.jumps ∧ c4Id < listLen c4Store.steps) ∧
    (((c4Store.get_jump c4Id ≠ none ∨
        ((c4Store.node c4Id).population ≠ 0 ∧
          (c4Store.node c4Id).level ≠ 5)) →
      (jump 2 c4Id c4Store).2.get_jump c4Id =
        some ((jump 2 c4Id c4Store).1)) ∧
    ((c4Store.get_step c4Id ≠ none ∨
        c4Store.step_log_2 = (c4Store.node c4Id).level - 2 ∨
        (c4Store.node c4Id).population ≠ 0) →
      (step 2 c4Id c4Store).2.get_step c4Id =
        some ((step 2 c4Id c4Store).1))) :=
  ⟨⟨by decide, by decide, by decide⟩,
    memo_discipline_positive_branches 1 c4Id c4Store 0 0 0 0 (by decide)
      (by decide) (by decide)⟩

set_option maxRecDepth 1000000 in
/-- Counterexample to C6 as stated: on the empty level-5 interior node
of a fresh store, `jump` takes the zero-population short-circuit and
`step` (with the default step exponent 0 ≠ level - 2) does the same;
both return without populating their cache, so the cache entry for the
node is still `none` afterwards. -/
theorem memo_discipline_zero_pop_not_cached :
    (c6Store.node c4Id).kind = .interior 0 0 0 0 ∧
    (c6Store.node c4Id).level = 5 ∧
    (c6Store.node c4Id).population = 0 ∧
    (jump 2 c4Id c6Store).2.get_jump c4Id = none ∧
    (step 2 c4Id c6Store).2.get_step c4Id = none := by decide

set_option maxRecDepth 10000000 in
set_option maxHeartbeats 4000000 in
/-- C5: starting from the five-cell glider, after `set_step_log_2 10`
and one `step`, the generation counter equals 1024 and the alive cells
are exactly the five starting positions translated by (+256, +256).
The whole engine (padding, store interning, the SIMD leaf kernels, the
jump/step recursion and the cell read-back) is evaluated by the kernel
on this concrete input. -/
theorem glider_large_jump :
    (let l := (glider.set_step_log_2 10).step
     (l.generation, l.get_alive_cells)) =
      (1024,
        [(⟨1, 0⟩ : Position), ⟨2, 1⟩, ⟨0, 2⟩, ⟨1, 2⟩, ⟨2, 2⟩].map
          (fun p => Position.offset p 256 256)) := rfl


/-! ### Canonicalization of the interning table -/

theorem findKind_nil (k : NodeKind) : findKind [] k = none := rfl

theorem findKind_cons (n : Node) (l : List Node) (k : NodeKind) :
    findKind (n :: l) k =
      if n.kind = k then some 0
      else match findKind l k with
           | some i => some (i + 1)
           | none => none := rfl

/-- A found index survives appending further nodes. -/
theorem findKind_app_of_some (l : List Node) (k : NodeKind) (i : Nat)
    (h : findKind l k = some i) (tl : List Node) :
    findKind (listApp l tl) k = some i := by
  induction l generalizing i with
  | nil => rw [findKind_nil] at h; exact Option.noConfusion h
  | cons a l ih =>
      rw [findKind_cons] at h
      rw [listApp_cons, findKind_cons]
      by_cases ha : a.kind = k
      case pos =>
        rw [if_pos ha] at h ⊢
        exact h
      case neg =>
        rw [if_neg ha] at h ⊢
        rcases hf : findKind l k with _ | j
        case none =>
          simp only [hf] at h
          exact Option.noConfusion h
        case some =>
          simp only [hf] at h
          simp only [ih j hf]
          exact h
/-- Appending a single node to a list in which its base is absent makes
it findable at the old length. -/
theorem findKind_app_singleton_of_none (l : List Node) (n : Node)
    (h : findKind l n.kind = none) :
    findKind (listApp l [n]) n.kind = some (listLen l) := by
  induction l with
  | nil =>
      rw [listApp_nil, findKind_cons, if_pos rfl]
      rfl
  | cons a l ih =>
      rw [findKind_cons] at h
      rw [listApp_cons, findKind_cons, listLen_cons]
      by_cases ha : a.kind = n.kind
      case pos => rw [if_pos ha] at h; exact Option.noConfusion h
      case neg =>
        rw [if_neg ha] at h ⊢
        rcases hf : findKind l n.kind with _ | j
        case none => simp only [ih hf]
        case some =>
          simp only [hf] at h
          exact Option.noConfusion h

/-- After interning a node, its base is findable at the returned id. -/
theorem add_node_finds (s : Store) (n : Node) :
    findKind ((s.add_node n).2).nodes n.kind = some ((s.add_node n).1) := by
  unfold Store.add_node
  rcases hf : findKind s.nodes n.kind with _ | i
  case none => exact findKind_app_singleton_of_none s.nodes n hf
  case some => exact hf

/-- C7: canonicalization is an invariant of every operation sequence.
After interning `n1`, in any store reached from there by operations
that only append nodes, interning any `n2` whose base is bit-equal to
`n1`'s returns the id the first call returned and leaves the store
unchanged (nothing is appended). -/
theorem canonical_intern (s s' : Store) (n1 n2 : Node)
    (hk : n1.kind = n2.kind)
    (hext : nodesExtend (s.add_node n1).2 s') :
    s'.add_node n2 = ((s.add_node n1).1, s') := by
  obtain ⟨tl, htl⟩ := hext
  have hf2 : findKind s'.nodes n2.kind = some ((s.add_node n1).1) := by
    rw [htl, ← hk]
    exact findKind_app_of_some _ _ _ (add_node_finds s n1) tl
  unfold Store.add_node
  rw [hf2]
  rfl

set_option maxRecDepth 1000000 in
/-- Witness for C7 at a concrete store: the base `⟨.leaf 3, 4, 2⟩` is
interned into a fresh store, an unrelated leaf is created, and the
re-interning returns the original id without touching the store. -/
theorem canonical_intern_witness :
    ((⟨.leaf 3, 4, 2⟩ : Node).kind = (⟨.leaf 3, 4, 2⟩ : Node).kind ∧
      nodesExtend (Store.new.add_node ⟨.leaf 3, 4, 2⟩).2 c7Store) ∧
    c7Store.add_node ⟨.leaf 3, 4, 2⟩ =
      ((Store.new.add_node ⟨.leaf 3, 4, 2⟩).1, c7Store) :=
  ⟨⟨rfl, ⟨[⟨.leaf 7, 4, 3⟩], by decide⟩⟩,
    canonical_intern Store.new c7Store ⟨.leaf 3, 4, 2⟩ ⟨.leaf 3, 4, 2⟩ rfl
      ⟨[⟨.leaf 7, 4, 3⟩], by decide⟩⟩

/-! ### The population and id invariants of reachable stores -/

theorem listGetD_listApp_self {α : Type} (d x : α) (l tl : List α) :
    listGetD d (listApp l (x :: tl)) (listLen l) = x := by
  induction l with
  | nil => rfl
  | cons a as ih =>
      rw [listApp_cons, listLen_cons, listGetD_cons_succ]
      exact ih

theorem findKind_lt (l : List Node) (k : NodeKind) (i : Nat)
    (h : findKind l k = some i) : i < listLen l := by
  induction l generalizing i with
  | nil => rw [findKind_nil] at h; exact Option.noConfusion h
  | cons a as ih =>
      rw [findKind_cons] at h
      rw [listLen_cons]
      by_cases ha : a.kind = k
      case pos =>
        rw [if_pos ha] at h
        cases h
        omega
      case neg =>
        rw [if_neg ha] at h
        rcases hf : findKind as k with _ | j
        case none =>
          simp only [hf] at h
          exact Option.noConfusion h
        case some =>
          simp only [hf] at h
          cases h
          have := ih j hf
          omega

/-- `PopNodeOk` transfers to any store that reads the node's children
identically. -/
theorem popNodeOk_mono {s s' : Store} {n : Node}
    (hn : ∀ j, j < listLen s.nodes → s'.node j = s.node j)
    (hids : IdsNodeOk s n) (hpop : PopNodeOk s n) : PopNodeOk s' n := by
  unfold PopNodeOk at hpop ⊢
  unfold IdsNodeOk at hids
  rcases hk : n.kind with g | ⟨a, b, c, d⟩
  case leaf =>
    simp only [hk] at hpop ⊢
    exact hpop
  case interior =>
    simp only [hk] at hpop hids ⊢
    rw [hn a hids.1, hn b hids.2.1, hn c hids.2.2.1, hn d hids.2.2.2]
    exact hpop

/-- `IdsNodeOk` transfers to any store with at least as many nodes. -/
theorem idsNodeOk_mono {s s' : Store} {n : Node}
    (hlen : listLen s.nodes ≤ listLen s'.nodes) (hids : IdsNodeOk s n) :
    IdsNodeOk s' n := by
  unfold IdsNodeOk at hids ⊢
  rcases hk : n.kind with g | ⟨a, b, c, d⟩
  case leaf => simp only [hk]
  case interior =>
    simp only [hk] at hids ⊢
    omega

/-- Appending a node that satisfies the node-local invariants preserves
the store invariant. -/
theorem inv_append (s : Store) (n : Node) (hinv : Inv s)
    (hpop : PopNodeOk s n) (hids : IdsNodeOk s n) (s' : Store)
    (hn : s'.nodes = listApp s.nodes [n]) (he : s'.empties = s.empties) :
    Inv s' := by
  have hlen : listLen s'.nodes = listLen s.nodes + 1 := by
    rw [hn, listLen_listApp]
    rfl
  have hold : ∀ j, j < listLen s.nodes → s'.node j = s.node j := by
    intro j hj
    unfold Store.node
    rw [hn, listGetD_listApp _ _ _ _ hj]
  have hlast : s'.node (listLen s.nodes) = n := by
    unfold Store.node
    rw [hn]
    exact listGetD_listApp_self _ _ _ _
  constructor
  · intro i hi
    rw [hlen] at hi
    rcases Nat.lt_or_ge i (listLen s.nodes) with hlt | hge
    case inl =>
      rw [hold i hlt]
      obtain ⟨hp, hd⟩ := hinv.1 i hlt
      exact ⟨popNodeOk_mono hold hd hp, idsNodeOk_mono (by omega) hd⟩
    case inr =>
      have hieq : i = listLen s.nodes := by omega
      subst hieq
      rw [hlast]
      exact ⟨popNodeOk_mono hold hids hpop, idsNodeOk_mono (by omega) hids⟩
  · intro j hj
    rw [he] at hj
    have := hinv.2 j hj
    rw [he, hlen]
    omega

/-- `add_node` preserves the invariant and returns an in-range id. -/
theorem inv_add_node (s : Store) (n : Node) (hinv : Inv s)
    (hpop : PopNodeOk s n) (hids : IdsNodeOk s n) :
    Inv (s.add_node n).2 ∧
      (s.add_node n).1 < listLen (s.add_node n).2.nodes := by
  unfold Store.add_node
  rcases hf : findKind s.nodes n.kind with _ | i
  case none =>
    simp only [hf]
    refine ⟨inv_append s n hinv hpop hids _ rfl rfl, ?_⟩
    show listLen s.nodes < listLen (listApp s.nodes [n])
    rw [listLen_listApp, show listLen ([n] : List Node) = 1 from rfl]
    omega
  case some =>
    simp only [hf]
    exact ⟨hinv, findKind_lt _ _ _ hf⟩

/-- `create_leaf` preserves the invariant. -/
theorem inv_create_leaf (s : Store) (g : Grid) (hinv : Inv s) :
    Inv (s.create_leaf g).2 ∧
      (s.create_leaf g).1 < listLen (s.create_leaf g).2.nodes := by
  unfold Store.create_leaf
  exact inv_add_node s _ hinv rfl trivial

/-- `create_interior` with in-range children preserves the invariant. -/
theorem inv_create_interior (s : Store) (t : NodeTemplate) (hinv : Inv s)
    (h1 : t.nw < listLen s.nodes) (h2 : t.ne < listLen s.nodes)
    (h3 : t.sw < listLen s.nodes) (h4 : t.se < listLen s.nodes) :
    Inv (s.create_interior t).2 ∧
      (s.create_interior t).1 < listLen (s.create_interior t).2.nodes := by
  unfold Store.create_interior
  exact inv_add_node s _ hinv rfl ⟨h1, h2, h3, h4⟩

/-- Pushing an in-range id onto the `empties` cache preserves the
invariant. -/
theorem inv_push_empty (s : Store) (e : Nat) (hinv : Inv s)
    (he : e < listLen s.nodes) :
    Inv { s with empties := listApp s.empties [e] } := by
  constructor
  · exact hinv.1
  · intro j hj
    have hj2 : j < listLen (listApp s.empties [e]) := hj
    rw [listLen_listApp] at hj2
    have h1 : listLen ([e] : List Nat) = 1 := rfl
    rw [h1] at hj2
    show listGetD 0 (listApp s.empties [e]) j < listLen s.nodes
    rcases Nat.lt_or_ge j (listLen s.empties) with hlt | hge
    case inl =>
      rw [listGetD_listApp _ _ _ _ hlt]
      exact hinv.2 j hlt
    case inr =>
      have hje : j = listLen s.empties := by omega
      subst hje
      rw [listGetD_listApp_self]
      exact he

/-- One unfolding of the `create_empty` recursion. -/
theorem create_empty_rec_succ (l : Nat) (s : Store) :
    Store.create_empty_rec (l + 1) s =
      (if l + 1 < listLen s.empties then (listGetD 0 s.empties (l + 1), s)
       else
         let (empty, s') :=
           if l + 1 = 4 then s.create_leaf 0
           else
             let (e, s₁) := Store.create_empty_rec l s
             s₁.create_interior ⟨e, e, e, e⟩
         (empty, { s' with empties := listApp s'.empties [empty] })) := rfl

/-- `create_empty` at level ≥ 4 preserves the invariant and returns an
in-range id. -/
theorem inv_create_empty_rec :
    ∀ l, 4 ≤ l → ∀ s, Inv s →
      Inv (Store.create_empty_rec l s).2 ∧
        (Store.create_empty_rec l s).1 <
          listLen (Store.create_empty_rec l s).2.nodes := by
  intro l
  induction l with
  | zero => intro h; exact absurd h (by decide)
  | succ l ih =>
      intro h4 s hinv
      rw [create_empty_rec_succ]
      by_cases hc : l + 1 < listLen s.empties
      case pos =>
        rw [if_pos hc]
        exact ⟨hinv, hinv.2 _ hc⟩
      case neg =>
        rw [if_neg hc]
        by_cases h4' : l + 1 = 4
        case pos =>
          rw [if_pos h4']
          rcases hcl : s.create_leaf 0 with ⟨e, s'⟩
          simp only [hcl]
          have hinv' := inv_create_leaf s 0 hinv
          simp only [hcl] at hinv'
          exact ⟨inv_push_empty s' e hinv'.1 hinv'.2, hinv'.2⟩
        case neg =>
          rw [if_neg h4']
          rcases hrec : Store.create_empty_rec l s with ⟨e, s₁⟩
          simp only [hrec]
          have hl : 4 ≤ l := by omega
          have hinv₁ := ih hl s hinv
          simp only [hrec] at hinv₁
          rcases hci : s₁.create_interior ⟨e, e, e, e⟩ with ⟨e2, s₂⟩
          simp only [hci]
          have hinv₂ := inv_create_interior s₁ ⟨e, e, e, e⟩ hinv₁.1
            hinv₁.2 hinv₁.2 hinv₁.2 hinv₁.2
          simp only [hci] at hinv₂
          exact ⟨inv_push_empty s₂ e2 hinv₂.1 hinv₂.2, hinv₂.2⟩

/-- `set_step_log_2` does not touch `nodes` or `empties`. -/
theorem inv_set_step_log_2 (s : Store) (k : Nat) (hinv : Inv s) :
    Inv (s.set_step_log_2 k) := by
  unfold Store.set_step_log_2
  by_cases h : k ≠ s.step_log_2
  case pos =>
    rw [if_pos h]
    exact hinv
  case neg =>
    rw [if_neg h]
    exact hinv

/-- Every reachable store satisfies the invariant. -/
theorem reachable_inv (s : Store) (h : Reachable s) : Inv s := by
  induction h with
  | base =>
      constructor
      · intro i hi
        exact absurd hi (Nat.not_lt_zero i)
      · intro j hj
        exact absurd hj (Nat.not_lt_zero j)
  | create_leaf s g a ih => exact (inv_create_leaf s g ih).1
  | create_interior s t h1 h2 h3 h4 a ih =>
      exact (inv_create_interior s t ih h1 h2 h3 h4).1
  | create_empty s level hl a ih =>
      exact (inv_create_empty_rec level hl s ih).1
  | set_step s k a ih => exact inv_set_step_log_2 s k ih
  | add_step s id r a ih =>
      unfold Store.add_step
      exact ih
  | add_jump s id r a ih =>
      unfold Store.add_jump
      exact ih

/-- C8: in every store reachable by any sequence of operations, every
leaf node's `population` field is the popcount of its board, and every
interior node's `population` field is the sum of its four children's
`population` fields. -/
theorem population_invariant (s : Store) (h : Reachable s) :
    ∀ i, i < listLen s.nodes →
      (∀ g, (s.node i).kind = .leaf g →
        (s.node i).population = popCount 256 g) ∧
      (∀ a b c d, (s.node i).kind = .interior a b c d →
        (s.node i).population =
          (s.node a).population + (s.node b).population +
            (s.node c).population + (s.node d).population) := by
  intro i hi
  have hp := ((reachable_inv s h).1 i hi).1
  unfold PopNodeOk at hp
  constructor
  · intro g hg
    simp only [hg] at hp
    exact hp
  · intro a b c d hk
    simp only [hk] at hp
    exact hp

/-- Witness for C8 at a concrete reachable store. -/
theorem population_invariant_witness :
    Reachable c8Store ∧
    (∀ i, i < listLen c8Store.nodes →
      (∀ g, (c8Store.node i).kind = .leaf g →
        (c8Store.node i).population = popCount 256 g) ∧
      (∀ a b c d, (c8Store.node i).kind = .interior a b c d →
        (c8Store.node i).population =
          (c8Store.node a).population + (c8Store.node b).population +
            (c8Store.node c).population + (c8Store.node d).population)) :=
  ⟨Reachable.create_empty _ 5 (by decide)
      (Reachable.create_leaf _ 3 Reachable.base),
    population_invariant c8Store
      (Reachable.create_empty _ 5 (by decide)
        (Reachable.create_leaf _ 3 Reachable.base))⟩

/-! ### expand against the empties cache -/

set_option maxRecDepth 1000000 in
/-- C9: refuted on a reachable store.  `create_empty` looks the cache
up at index `level` but pushes the empties it builds in ascending level
order starting at level 4, so after a first `create_empty 8` the entry
at index 4 is the level-8 empty.  `expand` of a level-5 node then asks
for the level-4 empty, receives the level-8 one, and builds a node of
level 10 instead of 6. -/
theorem expand_wrong_level_after_create_empty :
    (c9s3.2.node c9s3.1).kind =
      .interior c9s2.1 c9s2.1 c9s2.1 c9s2.1 ∧
    (c9s3.2.node c9s3.1).level = 5 ∧
    (c9X.2.node c9X.1).level = 10 ∧
    ¬(c9X.2.node c9X.1).level = (c9s3.2.node c9s3.1).level + 1 := by
  decide

end Engine

namespace SmStore

/-- C10: `create_interior` reads the common child level from the
northeast child and its first `assert_eq!` compares the northeast
child's level with itself, so a northwest child of a different level is
never detected: with `nw` of level 3 and `ne = sw = se` of level 4 the
call does not panic and silently creates a level-5 interior node with
the mismatched child, while the same mismatch placed at `sw` does
panic. -/
theorem create_interior_nw_level_mismatch_no_panic :
    (c10Store.get c10Nw).level = 3 ∧
    (c10Store.get c10Ne).level = 4 ∧
    (c10Store.create_interior ⟨c10Nw, c10Ne, c10Ne, c10Ne⟩).isSome = true ∧
    ((c10Store.create_interior ⟨c10Nw, c10Ne, c10Ne, c10Ne⟩).map
        (fun r => ((r.2.get r.1).level, (r.2.get r.1).base))) =
      some (5, .interior c10Nw c10Ne c10Ne c10Ne) ∧
    c10Store.create_interior ⟨c10Ne, c10Ne, c10Nw, c10Ne⟩ = none := by
  decide

end SmStore
